import Mathlib

/-!
Elasticsearch cluster validation (navigator).

A shallow embedding of `pkg/apis/navigator/validation/elasticsearch.go` and the
properties of its validators: the master-quorum decision table, the node-pool
loop with duplicate detection, and the update immutability check.

Conventions of the embedding:

* a Go pointer `*T` is an `Option T`; `reflect.DeepEqual` on pointers is
  equality of the options;
* a Go slice that takes part in `reflect.DeepEqual` is an `Option (List T)`:
  `none` is the nil slice, `some []` the empty non-nil slice;
* `int32` values are integers, and the one addition of the file wraps
  explicitly (`wrapInt32`);
* a nil-pointer dereference aborts the call: functions that can reach one
  return `Option`, and `none` is the abort;
* the `k8s.io/apimachinery` package `field` is an external library: its error
  values are kept as records of what the constructor was given;
* the effect of the update check on the objects of its caller is stated on a
  memory of node-pool structs, in which the loop variable has its own address
  and field assignments are stores.
-/

set_option autoImplicit false

namespace field

/-- A `field.Path`, built as the Go code builds it: `NewPath`, then `Child`
and `Index` steps. -/
inductive Path where
  | NewPath (name : String)
  | Child (parent : Path) (name : String)
  | Index (parent : Path) (index : Nat)
deriving DecidableEq, Repr

/-- The `field.ErrorType` enumeration. -/
inductive ErrorType where
  | ErrorTypeNotFound
  | ErrorTypeRequired
  | ErrorTypeDuplicate
  | ErrorTypeInvalid
  | ErrorTypeNotSupported
  | ErrorTypeForbidden
  | ErrorTypeTooLong
  | ErrorTypeInternal
deriving DecidableEq, Repr

/-- The `BadValue interface{}` of a `field.Error`: the dynamic values this
package stores there, and `other` for whatever a collaborator stores. -/
inductive Value where
  | str (s : String)
  | int32 (n : Int)
  | int32Ptr (p : Option Int)
  | role (r : String)
  | other (s : String)
deriving DecidableEq, Repr

/-- The detail of a `field.Error`: a text, or for `NotSupported` the list of
valid values the library renders into the text. -/
inductive Detail where
  | text (s : String)
  | supportedValues (validValues : List String)
deriving DecidableEq, Repr

/-- A `field.Error`. -/
structure Error where
  Kind : ErrorType
  Field : Path
  BadValue : Value
  Detail : Detail
deriving DecidableEq, Repr

/-- The Go `field.Required(path, detail)`. -/
def Required (p : Path) (detail : String) : Error :=
  { Kind := ErrorType.ErrorTypeRequired, Field := p, BadValue := Value.str "", Detail := Detail.text detail }

/-- The Go `field.Invalid(path, value, detail)`. -/
def Invalid (p : Path) (value : Value) (detail : String) : Error :=
  { Kind := ErrorType.ErrorTypeInvalid, Field := p, BadValue := value, Detail := Detail.text detail }

/-- The Go `field.NotSupported(path, value, validValues)`. -/
def NotSupported (p : Path) (value : Value) (validValues : List String) : Error :=
  { Kind := ErrorType.ErrorTypeNotSupported, Field := p, BadValue := value,
    Detail := Detail.supportedValues validValues }

/-- The Go `field.Duplicate(path, value)`. -/
def Duplicate (p : Path) (value : Value) : Error :=
  { Kind := ErrorType.ErrorTypeDuplicate, Field := p, BadValue := value, Detail := Detail.text "" }

/-- The Go `field.Forbidden(path, detail)`. -/
def Forbidden (p : Path) (detail : String) : Error :=
  { Kind := ErrorType.ErrorTypeForbidden, Field := p, BadValue := Value.str "", Detail := Detail.text detail }

/-- The Go `field.ErrorList`. -/
abbrev ErrorList := List Error

end field

namespace navigator

open field

/-- The Go `navigator.ElasticsearchClusterRole`, a string type. -/
abbrev ElasticsearchClusterRole := String

/-- Modelled from the spec: the role constant `Data` of package `navigator`,
whose declaration is not among the sources. -/
def ElasticsearchRoleData : ElasticsearchClusterRole := "data"

/-- Modelled from the spec: the role constant `Ingest` of package `navigator`,
whose declaration is not among the sources. -/
def ElasticsearchRoleIngest : ElasticsearchClusterRole := "ingest"

/-- Modelled from the spec: the role constant `Master` of package `navigator`,
whose declaration is not among the sources. -/
def ElasticsearchRoleMaster : ElasticsearchClusterRole := "master"

/-- The elements of a Go slice: none for the nil slice. -/
def sliceElems {α : Type} (s : Option (List α)) : List α :=
  s.getD []

/-- Modelled from the spec: the node pool type of package `navigator`, whose
declaration is not among the sources: a name, an optional replica count, a
role slice, an optional persistence configuration and a resource-requirements
field. The persistence type `P` and the resources type `R` are parameters. -/
structure ElasticsearchClusterNodePool (P R : Type) where
  Name : String
  Replicas : Option Int
  Roles : Option (List ElasticsearchClusterRole)
  Persistence : Option P
  Resources : R
deriving DecidableEq, Repr

/-- Modelled from the spec: the cluster specification type of package
`navigator`, whose declaration is not among the sources: the shared cluster
configuration (type `C`), an optional image (type `I`), the node pools, an
optional minimum number of masters and a version (type `V`). -/
structure ElasticsearchClusterSpec (C I P R V : Type) where
  NavigatorClusterConfig : C
  Image : Option I
  NodePools : List (ElasticsearchClusterNodePool P R)
  MinimumMasters : Option Int
  Version : V

/-- Modelled from the spec: the cluster object of package `navigator`, whose
declaration is not among the sources: object metadata (type `M`) and a
specification. -/
structure ElasticsearchCluster (M C I P R V : Type) where
  ObjectMeta : M
  Spec : ElasticsearchClusterSpec C I P R V

end navigator

namespace util

/-- Modelled from the spec: `util.CalculateQuorum`, whose package is not among
the sources: the majority function, the smallest integer strictly greater
than half the count. -/
def CalculateQuorum (num : Int) : Int :=
  num / 2 + 1

end util

namespace validation

open field navigator

/-- The validators of this package that live in other files, and the test
`spec.Version.Equal(emptySemver)`, taken as parameters. `ValidateObjectMeta`
stands for the call with `requiresNamespace = true` and the subdomain name
checker, as `ValidateElasticsearchCluster` makes it. -/
structure Collaborators (M C I P V : Type) where
  ValidateObjectMeta : M → Path → ErrorList
  ValidateNavigatorClusterConfig : C → Path → ErrorList
  ValidateImageSpec : I → Path → ErrorList
  ValidatePersistenceConfig : P → Path → ErrorList
  ValidateDNS1123Subdomain : String → Path → ErrorList
  VersionEqualEmptySemver : V → Bool

/-- Two's-complement wrap of an integer to the range of `int32`. -/
def wrapInt32 (x : Int) : Int :=
  (x + 2147483648) % 4294967296 - 2147483648

/-- The package variable `supportedESClusterRoles`. -/
def supportedESClusterRoles : List String :=
  [ElasticsearchRoleData, ElasticsearchRoleIngest, ElasticsearchRoleMaster]

/-- The Go `ValidateElasticsearchClusterRole`. -/
def ValidateElasticsearchClusterRole (r : ElasticsearchClusterRole) (fldPath : Path) : ErrorList :=
  let el : ErrorList := []
  if r = ElasticsearchRoleData then el
  else if r = ElasticsearchRoleIngest then el
  else if r = ElasticsearchRoleMaster then el
  else el ++ [NotSupported fldPath (Value.role r) supportedESClusterRoles]

/-- The loop `for i, r := range np.Roles` of
`ValidateElasticsearchClusterNodePool`, from index `i` with the errors so far. -/
def validateRolesLoop (rolesPath : Path) :
    List ElasticsearchClusterRole → Nat → ErrorList → ErrorList
  | [], _, el => el
  | r :: rest, i, el =>
    let idxPath := rolesPath.Index i
    validateRolesLoop rolesPath rest (i + 1) (el ++ ValidateElasticsearchClusterRole r idxPath)

/-- The Go `containsElasticsearchRole`. -/
def containsElasticsearchRole (set : List ElasticsearchClusterRole)
    (role : ElasticsearchClusterRole) : Bool :=
  match set with
  | [] => false
  | s :: rest => if s = role then true else containsElasticsearchRole rest role

section
variable {M C I P R V : Type}

/-- The Go `ValidateElasticsearchClusterNodePool`. -/
def ValidateElasticsearchClusterNodePool (env : Collaborators M C I P V)
    (np : ElasticsearchClusterNodePool P R) (fldPath : Path) : ErrorList :=
  let el := env.ValidateDNS1123Subdomain np.Name (fldPath.Child "name")
  let el := match np.Persistence with
    | some p => el ++ env.ValidatePersistenceConfig p (fldPath.Child "persistence")
    | none => el
  let rolesPath := fldPath.Child "roles"
  let el := if (sliceElems np.Roles).length = 0
    then el ++ [Required rolesPath "at least one role must be specified"]
    else el
  let el := validateRolesLoop rolesPath (sliceElems np.Roles) 0 el
  let el := match np.Replicas with
    | some r =>
      if r < 0
      then el ++ [Invalid (fldPath.Child "replicas") (Value.int32Ptr np.Replicas) "must be greater than zero"]
      else el
    | none => el
  el

/-- The loop of `countElasticsearchMasters`, with the running total; a Master
pool whose `Replicas` is nil aborts. -/
def countMastersLoop : List (ElasticsearchClusterNodePool P R) → Int → Option Int
  | [], masters => some masters
  | pool :: rest, masters =>
    if containsElasticsearchRole (sliceElems pool.Roles) ElasticsearchRoleMaster then
      match pool.Replicas with
      | none => none
      | some r => countMastersLoop rest (wrapInt32 (masters + r))
    else countMastersLoop rest masters

/-- The Go `countElasticsearchMasters`. -/
def countElasticsearchMasters (pools : List (ElasticsearchClusterNodePool P R)) : Option Int :=
  countMastersLoop pools 0

/-- The loop `for i, np := range spec.NodePools` of
`ValidateElasticsearchClusterSpec`, from index `i` with the names seen and the
errors so far. -/
def validateNodePoolsLoop (env : Collaborators M C I P V) (npPath : Path) :
    List (ElasticsearchClusterNodePool P R) → Nat → List String → ErrorList → ErrorList
  | [], _, _, allErrs => allErrs
  | np :: rest, i, allNames, allErrs =>
    let idxPath := npPath.Index i
    if np.Name ∈ allNames then
      let allErrs := allErrs ++ [Duplicate (idxPath.Child "name") (Value.str np.Name)]
      validateNodePoolsLoop env npPath rest (i + 1) allNames
        (allErrs ++ ValidateElasticsearchClusterNodePool env np idxPath)
    else
      let allNames := np.Name :: allNames
      validateNodePoolsLoop env npPath rest (i + 1) allNames
        (allErrs ++ ValidateElasticsearchClusterNodePool env np idxPath)

/-- The `switch` of `ValidateElasticsearchClusterSpec` on the master count:
the errors it appends. -/
def minimumMastersSwitch (fldPath npPath : Path) (MinimumMasters : Option Int)
    (numMasters quorum : Int) : ErrorList :=
  if numMasters = 0 then
    [Invalid npPath (Value.int32 numMasters) "must be at least one master node"]
  else
    match MinimumMasters with
    | none => []
    | some m =>
      if m = 0 then
        [Invalid (fldPath.Child "minimumMasters") (Value.int32 m) "cannot be zero"]
      else if m < quorum then
        [Invalid (fldPath.Child "minimumMasters") (Value.int32 m)
          ("must be a minimum of " ++ toString quorum ++ " to avoid a split brain scenario")]
      else if m > numMasters then
        [Invalid (fldPath.Child "minimumMasters") (Value.int32 m)
          "cannot be greater than the total number of master nodes"]
      else []

/-- The Go `ValidateElasticsearchClusterSpec`; `none` is the abort of
`countElasticsearchMasters`. -/
def ValidateElasticsearchClusterSpec (env : Collaborators M C I P V)
    (spec : ElasticsearchClusterSpec C I P R V) (fldPath : Path) : Option ErrorList :=
  let allErrs := env.ValidateNavigatorClusterConfig spec.NavigatorClusterConfig fldPath
  let allErrs := match spec.Image with
    | some img => allErrs ++ env.ValidateImageSpec img (fldPath.Child "image")
    | none => allErrs
  let npPath := fldPath.Child "nodePools"
  let allErrs := validateNodePoolsLoop env npPath spec.NodePools 0 [] allErrs
  match countElasticsearchMasters spec.NodePools with
  | none => none
  | some numMasters =>
    let quorum := util.CalculateQuorum numMasters
    let allErrs := allErrs ++ minimumMastersSwitch fldPath npPath spec.MinimumMasters numMasters quorum
    let allErrs := if env.VersionEqualEmptySemver spec.Version
      then allErrs ++ [Required (fldPath.Child "version") "must be a semver version"]
      else allErrs
    some allErrs

/-- The Go `ValidateElasticsearchCluster`. -/
def ValidateElasticsearchCluster (env : Collaborators M C I P V)
    (esc : ElasticsearchCluster M C I P R V) : Option ErrorList :=
  let allErrs := env.ValidateObjectMeta esc.ObjectMeta (Path.NewPath "metadata")
  match ValidateElasticsearchClusterSpec env esc.Spec (Path.NewPath "spec") with
  | none => none
  | some specErrs => some (allErrs ++ specErrs)

/-- The inner loop `for _, oldNp := range old.Spec.NodePools` of
`ValidateElasticsearchClusterUpdate` for one new pool: it stops at the first
old pool of the same name. -/
def oldNodePoolsLoop [DecidableEq P] [DecidableEq R] (idxPath : Path)
    (newNp : ElasticsearchClusterNodePool P R) :
    List (ElasticsearchClusterNodePool P R) → ErrorList → ErrorList
  | [], allErrs => allErrs
  | oldNp :: rest, allErrs =>
    if newNp.Name = oldNp.Name then
      let allErrs :=
        if ¬ (newNp.Persistence = oldNp.Persistence) then
          if oldNp.Persistence ≠ none then
            allErrs ++ [Forbidden (idxPath.Child "persistence")
              "cannot modify persistence configuration once enabled"]
          else allErrs
        else allErrs
      let newNp1 := { newNp with Replicas := oldNp.Replicas }
      let newNp2 := { newNp1 with Persistence := oldNp.Persistence }
      if ¬ (newNp2 = oldNp) then
        allErrs ++ [Forbidden (Path.NewPath "spec")
          "updates to nodepool for fields other than 'replicas' and 'persistence' are forbidden."]
      else allErrs
    else oldNodePoolsLoop idxPath newNp rest allErrs

/-- The outer loop `for i, newNp := range new.Spec.NodePools` of
`ValidateElasticsearchClusterUpdate`, from index `i` with the errors so far. -/
def newNodePoolsLoop [DecidableEq P] [DecidableEq R] (npPath : Path)
    (oldPools : List (ElasticsearchClusterNodePool P R)) :
    List (ElasticsearchClusterNodePool P R) → Nat → ErrorList → ErrorList
  | [], _, allErrs => allErrs
  | newNp :: rest, i, allErrs =>
    let idxPath := npPath.Index i
    newNodePoolsLoop npPath oldPools rest (i + 1) (oldNodePoolsLoop idxPath newNp oldPools allErrs)

/-- The Go `ValidateElasticsearchClusterUpdate`; `none` is the abort of the
validation of `new`. -/
def ValidateElasticsearchClusterUpdate [DecidableEq P] [DecidableEq R]
    (env : Collaborators M C I P V) (old new : ElasticsearchCluster M C I P R V) :
    Option ErrorList :=
  match ValidateElasticsearchCluster env new with
  | none => none
  | some allErrs =>
    let fldPath := Path.NewPath "spec"
    let npPath := fldPath.Child "nodePools"
    some (newNodePoolsLoop npPath old.Spec.NodePools new.Spec.NodePools 0 allErrs)

/-! ### Auxiliary definitions used to state the properties -/

/-- The errors of the image check of `ValidateElasticsearchClusterSpec`. -/
def imageErrors (env : Collaborators M C I P V) (spec : ElasticsearchClusterSpec C I P R V)
    (fldPath : Path) : ErrorList :=
  match spec.Image with
  | some img => env.ValidateImageSpec img (fldPath.Child "image")
  | none => []

/-- The errors of the version check of `ValidateElasticsearchClusterSpec`. -/
def versionErrors (env : Collaborators M C I P V) (spec : ElasticsearchClusterSpec C I P R V)
    (fldPath : Path) : ErrorList :=
  if env.VersionEqualEmptySemver spec.Version
  then [Required (fldPath.Child "version") "must be a semver version"]
  else []

/-- The errors of the replica check of `ValidateElasticsearchClusterNodePool`. -/
def replicasErrors (np : ElasticsearchClusterNodePool P R) (fldPath : Path) : ErrorList :=
  match np.Replicas with
  | some r =>
    if r < 0
    then [Invalid (fldPath.Child "replicas") (Value.int32Ptr np.Replicas) "must be greater than zero"]
    else []
  | none => []

/-- The errors the update check appends for a new pool and the old pool of
the same name. -/
def immutabilityErrors [DecidableEq P] [DecidableEq R] (idxPath : Path)
    (newNp oldNp : ElasticsearchClusterNodePool P R) : ErrorList :=
  (if oldNp.Persistence ≠ none ∧ newNp.Persistence ≠ oldNp.Persistence
    then [Forbidden (idxPath.Child "persistence")
      "cannot modify persistence configuration once enabled"]
    else []) ++
  (if newNp.Name ≠ oldNp.Name ∨ newNp.Roles ≠ oldNp.Roles ∨ newNp.Resources ≠ oldNp.Resources
    then [Forbidden (Path.NewPath "spec")
      "updates to nodepool for fields other than 'replicas' and 'persistence' are forbidden."]
    else [])

/-- The first old pool with the name of the new pool. -/
def firstSameName (newNp : ElasticsearchClusterNodePool P R)
    (oldPools : List (ElasticsearchClusterNodePool P R)) : Option (ElasticsearchClusterNodePool P R) :=
  oldPools.find? (fun oldNp => decide (newNp.Name = oldNp.Name))

/-- The errors the update check appends for one new pool: none when no old
pool has its name. -/
def updateStep [DecidableEq P] [DecidableEq R] (idxPath : Path)
    (oldPools : List (ElasticsearchClusterNodePool P R))
    (newNp : ElasticsearchClusterNodePool P R) : ErrorList :=
  match firstSameName newNp oldPools with
  | none => []
  | some oldNp => immutabilityErrors idxPath newNp oldNp

/-- The errors the update check appends, pool by pool, from index `i`. -/
def updateSteps [DecidableEq P] [DecidableEq R] (npPath : Path)
    (oldPools : List (ElasticsearchClusterNodePool P R)) :
    List (ElasticsearchClusterNodePool P R) → Nat → List ErrorList
  | [], _ => []
  | newNp :: rest, i => updateStep (npPath.Index i) oldPools newNp :: updateSteps npPath oldPools rest (i + 1)

/-- The data-model invariant of a cluster specification, in the words of the
specification: node-pool names are pairwise distinct; some pool carrying the
Master role has at least one replica; the version is not the unset value; and
a set `MinimumMasters` is nonzero and lies between the quorum of the master
count and the master count, so that it is a strict majority and two groups
of that many masters always share a member. -/
def SpecInvariant (env : Collaborators M C I P V) (spec : ElasticsearchClusterSpec C I P R V) : Prop :=
  (spec.NodePools.map (fun np => np.Name)).Nodup ∧
  (∃ np ∈ spec.NodePools,
    containsElasticsearchRole (sliceElems np.Roles) ElasticsearchRoleMaster = true ∧
    ∃ r, np.Replicas = some r ∧ 1 ≤ r) ∧
  env.VersionEqualEmptySemver spec.Version = false ∧
  ∃ N, countElasticsearchMasters spec.NodePools = some N ∧
    (N < 2 * util.CalculateQuorum N ∧ ∀ q : Int, N < 2 * q → util.CalculateQuorum N ≤ q) ∧
    ∀ m, spec.MinimumMasters = some m →
      m ≠ 0 ∧ util.CalculateQuorum N ≤ m ∧ m ≤ N ∧ 2 * m > N ∧
      ∀ A B : Finset (Fin N.toNat), A.card = m.toNat → B.card = m.toNat → ¬ Disjoint A B

/-- Collaborators that report nothing; the version is a flag that is true
when it is the unset value. -/
def acceptAll : Collaborators Unit Unit Unit String Bool :=
  { ValidateObjectMeta := fun _ _ => [],
    ValidateNavigatorClusterConfig := fun _ _ => [],
    ValidateImageSpec := fun _ _ => [],
    ValidatePersistenceConfig := fun _ _ => [],
    ValidateDNS1123Subdomain := fun _ _ => [],
    VersionEqualEmptySemver := fun v => v }

/-- A node pool for the examples. -/
def examplePool (name : String) (replicas : Option Int) (roles : List ElasticsearchClusterRole)
    (persistence : Option String) : ElasticsearchClusterNodePool String Unit :=
  { Name := name, Replicas := replicas, Roles := some roles, Persistence := persistence, Resources := () }

/-- A specification for the examples. -/
def exampleSpec (pools : List (ElasticsearchClusterNodePool String Unit)) (minimumMasters : Option Int)
    (versionUnset : Bool) : ElasticsearchClusterSpec Unit Unit String Unit Bool :=
  { NavigatorClusterConfig := (), Image := none, NodePools := pools,
    MinimumMasters := minimumMasters, Version := versionUnset }

/-- A cluster for the examples. -/
def exampleCluster (pools : List (ElasticsearchClusterNodePool String Unit)) (minimumMasters : Option Int)
    (versionUnset : Bool) : ElasticsearchCluster Unit Unit Unit String Unit Bool :=
  { ObjectMeta := (), Spec := exampleSpec pools minimumMasters versionUnset }

/-- An error was returned by one of the collaborator validators called for
the specification: the cluster-configuration, image, name or persistence
validator. -/
def ReturnedByCollaborator (env : Collaborators M C I P V)
    (spec : ElasticsearchClusterSpec C I P R V) (e : Error) : Prop :=
  (∃ p, e ∈ env.ValidateNavigatorClusterConfig spec.NavigatorClusterConfig p) ∨
  (∃ img p, spec.Image = some img ∧ e ∈ env.ValidateImageSpec img p) ∨
  (∃ np ∈ spec.NodePools, ∃ p, e ∈ env.ValidateDNS1123Subdomain np.Name p) ∨
  (∃ np ∈ spec.NodePools, ∃ pc p, np.Persistence = some pc ∧ e ∈ env.ValidatePersistenceConfig pc p)

/-- An error that the quorum decision table could have produced: an `Invalid`
error at `path.nodePools`, or any error at `path.minimumMasters`. -/
def IsQuorumError (fldPath : Path) (e : Error) : Prop :=
  (e.Kind = ErrorType.ErrorTypeInvalid ∧ e.Field = fldPath.Child "nodePools") ∨
  e.Field = fldPath.Child "minimumMasters"

/-- The specification example of a data pool with persistence enabled. -/
def dataPoolWithPersistence : ElasticsearchClusterNodePool String Unit :=
  examplePool "es-data" (some 2) ["data"] (some "10Gi")

/-- The same data pool with its persistence removed. -/
def dataPoolWithoutPersistence : ElasticsearchClusterNodePool String Unit :=
  examplePool "es-data" (some 2) ["data"] none

/-- The specification example of a Master pool with three replicas. -/
def masterPoolThree : ElasticsearchClusterNodePool String Unit :=
  examplePool "es-master" (some 3) ["master"] none

/-- The same Master pool with five replicas. -/
def masterPoolFive : ElasticsearchClusterNodePool String Unit :=
  examplePool "es-master" (some 5) ["master"] none

/-- The same Master pool with the Data role added. -/
def masterDataPoolThree : ElasticsearchClusterNodePool String Unit :=
  examplePool "es-master" (some 3) ["master", "data"] none

/-- A specification whose only pool carries the Master role and has no
replica count, with the version left unset. -/
def masterWithoutReplicasSpec : ElasticsearchClusterSpec Unit Unit String Unit Bool :=
  exampleSpec [examplePool "es-master" none ["master"] none] none true

/-- The errors of the persistence check of `ValidateElasticsearchClusterNodePool`. -/
def persistenceErrors (env : Collaborators M C I P V) (np : ElasticsearchClusterNodePool P R)
    (fldPath : Path) : ErrorList :=
  match np.Persistence with
  | some p => env.ValidatePersistenceConfig p (fldPath.Child "persistence")
  | none => []

/-- The errors the role loop appends, role by role, from index `i`. -/
def roleSteps (rolesPath : Path) : List ElasticsearchClusterRole → Nat → List ErrorList
  | [], _ => []
  | r :: rest, i => ValidateElasticsearchClusterRole r (rolesPath.Index i) :: roleSteps rolesPath rest (i + 1)

/-- The sum of the replica counts of the pools whose role list contains
Master, in the words of the specification; each such pool counts once. -/
def masterReplicaSum (pools : List (ElasticsearchClusterNodePool P R)) : Int :=
  ((pools.filter (fun np => decide (ElasticsearchRoleMaster ∈ sliceElems np.Roles))).map
    (fun np => np.Replicas.getD 0)).sum

/-- The memory of node-pool structs: the struct stored at each address. The
pointer fields of a struct are kept by what they point to, since no statement
of the package writes through a pointer. -/
abbrev Memory (P R : Type) := Nat → ElasticsearchClusterNodePool P R

/-- The Go assignment of a node-pool struct to the variable at address `a`. -/
def storePool (mem : Memory P R) (a : Nat) (v : ElasticsearchClusterNodePool P R) : Memory P R :=
  fun b => if b = a then v else mem b

/-- A cluster object of the caller, as `ValidateElasticsearchClusterUpdate`
receives it through a pointer: the elements of its node-pool slice are the
structs at the addresses `poolAddrs`; the fields the package never assigns
are kept by value. -/
structure ClusterRef (M C I V : Type) where
  ObjectMeta : M
  NavigatorClusterConfig : C
  Image : Option I
  MinimumMasters : Option Int
  Version : V
  poolAddrs : List Nat

/-- The cluster a reference denotes in a memory. -/
def loadCluster (mem : Memory P R) (ref : ClusterRef M C I V) : ElasticsearchCluster M C I P R V :=
  { ObjectMeta := ref.ObjectMeta,
    Spec :=
      { NavigatorClusterConfig := ref.NavigatorClusterConfig,
        Image := ref.Image,
        NodePools := ref.poolAddrs.map mem,
        MinimumMasters := ref.MinimumMasters,
        Version := ref.Version } }

/-- The inner loop of `ValidateElasticsearchClusterUpdate` on the memory. The
loop variable `newNp` is the struct at address `loc`; the range over the old
pools copies the element at each address into `oldNp`; the four assignments
to the fields of `newNp` are stores at `loc`. -/
def oldNodePoolsLoopMem [DecidableEq P] [DecidableEq R] (idxPath : Path) (loc : Nat) :
    Memory P R → List Nat → ErrorList → Memory P R × ErrorList
  | mem, [], allErrs => (mem, allErrs)
  | mem, c :: rest, allErrs =>
    let oldNp := mem c
    if (mem loc).Name = oldNp.Name then
      let allErrs :=
        if ¬ ((mem loc).Persistence = oldNp.Persistence) then
          if oldNp.Persistence ≠ none then
            allErrs ++ [Forbidden (idxPath.Child "persistence")
              "cannot modify persistence configuration once enabled"]
          else allErrs
        else allErrs
      let restoreReplicas := (mem loc).Replicas
      let mem := storePool mem loc { mem loc with Replicas := oldNp.Replicas }
      let restorePersistence := (mem loc).Persistence
      let mem := storePool mem loc { mem loc with Persistence := oldNp.Persistence }
      let allErrs :=
        if ¬ (mem loc = oldNp) then
          allErrs ++ [Forbidden (Path.NewPath "spec")
            "updates to nodepool for fields other than 'replicas' and 'persistence' are forbidden."]
        else allErrs
      let mem := storePool mem loc { mem loc with Replicas := restoreReplicas }
      let mem := storePool mem loc { mem loc with Persistence := restorePersistence }
      (mem, allErrs)
    else oldNodePoolsLoopMem idxPath loc mem rest allErrs

/-- The outer loop of `ValidateElasticsearchClusterUpdate` on the memory: each
iteration copies the element of the new slice at the next address into the
loop variable at `loc`, then runs the inner loop over the addresses of the
old slice. -/
def newNodePoolsLoopMem [DecidableEq P] [DecidableEq R] (npPath : Path) (oldAddrs : List Nat)
    (loc : Nat) : Memory P R → List Nat → Nat → ErrorList → Memory P R × ErrorList
  | mem, [], _, allErrs => (mem, allErrs)
  | mem, b :: rest, i, allErrs =>
    let idxPath := npPath.Index i
    let mem := storePool mem loc (mem b)
    let result := oldNodePoolsLoopMem idxPath loc mem oldAddrs allErrs
    newNodePoolsLoopMem npPath oldAddrs loc result.1 rest (i + 1) result.2

/-- The Go `ValidateElasticsearchClusterUpdate` on the memory: the final
memory and the returned errors, or `none` for the abort. `loc` is the address
of the loop variable `newNp`. -/
def ValidateElasticsearchClusterUpdateMem [DecidableEq P] [DecidableEq R]
    (env : Collaborators M C I P V) (mem : Memory P R) (old new : ClusterRef M C I V)
    (loc : Nat) : Option (Memory P R × ErrorList) :=
  match ValidateElasticsearchCluster env (loadCluster mem new) with
  | none => none
  | some allErrs =>
    let fldPath := Path.NewPath "spec"
    let npPath := fldPath.Child "nodePools"
    some (newNodePoolsLoopMem npPath old.poolAddrs loc mem new.poolAddrs 0 allErrs)

/-- A memory for the examples: the old pool "es-master" at address 0, its
proposed replacement at address 1. -/
def exampleMemory : Memory String Unit :=
  fun a =>
    if a = 0 then examplePool "es-master" (some 3) ["master"] none
    else if a = 1 then examplePool "es-master" (some 5) ["master", "data"] (some "10Gi")
    else examplePool "" none [] none

/-- A cluster reference for the examples, with its pools at the given
addresses. -/
def exampleRef (poolAddrs : List Nat) : ClusterRef Unit Unit Unit Bool :=
  { ObjectMeta := (), NavigatorClusterConfig := (), Image := none, MinimumMasters := none,
    Version := false, poolAddrs := poolAddrs }

/-- A Master pool under another name, with other roles and persistence. -/
def renamedMasterPool : ElasticsearchClusterNodePool String Unit :=
  examplePool "es-master-b" (some 3) ["master", "data"] (some "10Gi")

/-! ### The loops append to the errors they are given -/

theorem validateRolesLoop_append (rolesPath : Path) (roles : List ElasticsearchClusterRole) :
    ∀ (i : Nat) (el : ErrorList),
      validateRolesLoop rolesPath roles i el = el ++ validateRolesLoop rolesPath roles i [] := by
  induction roles with
  | nil => intro i el; simp [validateRolesLoop]
  | cons r rest ih =>
    intro i el
    simp only [validateRolesLoop]
    rw [ih (i + 1) (el ++ _), ih (i + 1) ([] ++ _)]
    simp

theorem validateNodePool_eq (env : Collaborators M C I P V)
    (np : ElasticsearchClusterNodePool P R) (fldPath : Path) :
    ValidateElasticsearchClusterNodePool env np fldPath =
      env.ValidateDNS1123Subdomain np.Name (fldPath.Child "name") ++
      (match np.Persistence with
        | some p => env.ValidatePersistenceConfig p (fldPath.Child "persistence")
        | none => []) ++
      (if (sliceElems np.Roles).length = 0
        then [Required (fldPath.Child "roles") "at least one role must be specified"] else []) ++
      validateRolesLoop (fldPath.Child "roles") (sliceElems np.Roles) 0 [] ++
      replicasErrors np fldPath := by
  unfold ValidateElasticsearchClusterNodePool replicasErrors
  simp only []
  rw [validateRolesLoop_append]
  cases np.Persistence <;> cases np.Replicas <;> simp <;> split_ifs <;> simp

theorem validateNodePoolsLoop_append (env : Collaborators M C I P V) (npPath : Path)
    (pools : List (ElasticsearchClusterNodePool P R)) :
    ∀ (i : Nat) (allNames : List String) (allErrs : ErrorList),
      validateNodePoolsLoop env npPath pools i allNames allErrs =
        allErrs ++ validateNodePoolsLoop env npPath pools i allNames [] := by
  induction pools with
  | nil => intro i allNames allErrs; simp [validateNodePoolsLoop]
  | cons np rest ih =>
    intro i allNames allErrs
    simp only [validateNodePoolsLoop]
    split_ifs with h
    · rw [ih (i + 1) allNames (_ ++ _), ih (i + 1) allNames ([] ++ _ ++ _)]
      simp
    · rw [ih (i + 1) _ (_ ++ _), ih (i + 1) _ ([] ++ _)]
      simp

theorem validateSpec_eq (env : Collaborators M C I P V)
    (spec : ElasticsearchClusterSpec C I P R V) (fldPath : Path) :
    ValidateElasticsearchClusterSpec env spec fldPath =
      (countElasticsearchMasters spec.NodePools).map (fun numMasters =>
        env.ValidateNavigatorClusterConfig spec.NavigatorClusterConfig fldPath ++
        imageErrors env spec fldPath ++
        validateNodePoolsLoop env (fldPath.Child "nodePools") spec.NodePools 0 [] [] ++
        minimumMastersSwitch fldPath (fldPath.Child "nodePools") spec.MinimumMasters numMasters
          (util.CalculateQuorum numMasters) ++
        versionErrors env spec fldPath) := by
  unfold ValidateElasticsearchClusterSpec imageErrors versionErrors
  simp only []
  rw [validateNodePoolsLoop_append]
  cases countElasticsearchMasters spec.NodePools with
  | none => rfl
  | some n =>
    cases spec.Image <;> simp <;> split_ifs <;> simp

theorem validateCluster_eq (env : Collaborators M C I P V)
    (esc : ElasticsearchCluster M C I P R V) :
    ValidateElasticsearchCluster env esc =
      (ValidateElasticsearchClusterSpec env esc.Spec (Path.NewPath "spec")).map (fun specErrs =>
        env.ValidateObjectMeta esc.ObjectMeta (Path.NewPath "metadata") ++ specErrs) := by
  unfold ValidateElasticsearchCluster
  cases ValidateElasticsearchClusterSpec env esc.Spec (Path.NewPath "spec") <;> rfl

/-! ### The update loops -/

theorem oldNodePoolsLoop_append [DecidableEq P] [DecidableEq R] (idxPath : Path)
    (newNp : ElasticsearchClusterNodePool P R) (oldPools : List (ElasticsearchClusterNodePool P R)) :
    ∀ (allErrs : ErrorList),
      oldNodePoolsLoop idxPath newNp oldPools allErrs =
        allErrs ++ oldNodePoolsLoop idxPath newNp oldPools [] := by
  induction oldPools with
  | nil => intro allErrs; simp [oldNodePoolsLoop]
  | cons oldNp rest ih =>
    intro allErrs
    simp only [oldNodePoolsLoop]
    by_cases hname : newNp.Name = oldNp.Name
    · simp only [hname, if_true]
      split_ifs <;> simp
    · simp only [hname, if_false]
      exact ih allErrs

theorem oldNodePoolsLoop_eq [DecidableEq P] [DecidableEq R] (idxPath : Path)
    (newNp : ElasticsearchClusterNodePool P R) (oldPools : List (ElasticsearchClusterNodePool P R)) :
    oldNodePoolsLoop idxPath newNp oldPools [] = updateStep idxPath oldPools newNp := by
  obtain ⟨n1, r1, ro1, p1, re1⟩ := newNp
  induction oldPools with
  | nil => simp [oldNodePoolsLoop, updateStep, firstSameName]
  | cons oldNp rest ih =>
    obtain ⟨n2, r2, ro2, p2, re2⟩ := oldNp
    simp only [oldNodePoolsLoop, updateStep, firstSameName, List.find?_cons]
    by_cases hname : n1 = n2
    · subst hname
      by_cases hp : p1 = p2 <;>
        by_cases ho : p2 = none <;>
        by_cases hr : ro1 = ro2 <;>
        by_cases hres : re1 = re2 <;>
        simp [immutabilityErrors, hp, ho, hr, hres]
    · simp only [hname, if_false, decide_False]
      rw [ih]
      simp [updateStep, firstSameName]

theorem newNodePoolsLoop_eq [DecidableEq P] [DecidableEq R] (npPath : Path)
    (oldPools newPools : List (ElasticsearchClusterNodePool P R)) :
    ∀ (i : Nat) (allErrs : ErrorList),
      newNodePoolsLoop npPath oldPools newPools i allErrs =
        allErrs ++ (updateSteps npPath oldPools newPools i).flatten := by
  induction newPools with
  | nil => intro i allErrs; simp [newNodePoolsLoop, updateSteps]
  | cons newNp rest ih =>
    intro i allErrs
    simp only [newNodePoolsLoop, updateSteps, List.flatten_cons]
    rw [ih, oldNodePoolsLoop_append, oldNodePoolsLoop_eq]
    simp

theorem updateSteps_length [DecidableEq P] [DecidableEq R] (npPath : Path)
    (oldPools newPools : List (ElasticsearchClusterNodePool P R)) :
    ∀ (i : Nat), (updateSteps npPath oldPools newPools i).length = newPools.length := by
  induction newPools with
  | nil => intro i; simp [updateSteps]
  | cons newNp rest ih => intro i; simp [updateSteps, ih]

theorem updateSteps_getElem? [DecidableEq P] [DecidableEq R] (npPath : Path)
    (oldPools newPools : List (ElasticsearchClusterNodePool P R)) :
    ∀ (i k : Nat),
      (updateSteps npPath oldPools newPools i)[k]? =
        (newPools[k]?).map (fun newNp => updateStep (npPath.Index (i + k)) oldPools newNp) := by
  induction newPools with
  | nil => intro i k; simp [updateSteps]
  | cons newNp rest ih =>
    intro i k
    cases k with
    | zero => simp [updateSteps]
    | succ k =>
      simp only [updateSteps, List.getElem?_cons_succ]
      rw [ih]
      congr 1
      funext np
      congr 2
      omega

theorem validateUpdate_eq [DecidableEq P] [DecidableEq R] (env : Collaborators M C I P V)
    (old new : ElasticsearchCluster M C I P R V) :
    ValidateElasticsearchClusterUpdate env old new =
      (ValidateElasticsearchCluster env new).map (fun allErrs =>
        allErrs ++ (updateSteps ((Path.NewPath "spec").Child "nodePools")
          old.Spec.NodePools new.Spec.NodePools 0).flatten) := by
  unfold ValidateElasticsearchClusterUpdate
  cases ValidateElasticsearchCluster env new with
  | none => rfl
  | some allErrs => simp [newNodePoolsLoop_eq]

/-! ### The master count -/

theorem wrapInt32_zero : wrapInt32 (0 + 0) = 0 := by decide

theorem countMastersLoop_all_zero (pools : List (ElasticsearchClusterNodePool P R))
    (hz : ∀ np ∈ pools, containsElasticsearchRole (sliceElems np.Roles) ElasticsearchRoleMaster = true →
      ∀ r, np.Replicas = some r → r = 0)
    (N : Int) (h : countMastersLoop pools 0 = some N) : N = 0 := by
  induction pools with
  | nil => simpa [countMastersLoop] using h.symm
  | cons np rest ih =>
    have hrest : ∀ q ∈ rest,
        containsElasticsearchRole (sliceElems q.Roles) ElasticsearchRoleMaster = true →
        ∀ r, q.Replicas = some r → r = 0 :=
      fun q hq => hz q (List.mem_cons_of_mem _ hq)
    simp only [countMastersLoop] at h
    by_cases hm : containsElasticsearchRole (sliceElems np.Roles) ElasticsearchRoleMaster = true
    · rw [if_pos hm] at h
      cases hr : np.Replicas with
      | none => rw [hr] at h; simp at h
      | some r =>
        rw [hr] at h
        have h0 : r = 0 := hz np (List.mem_cons_self _ _) hm r hr
        subst h0
        simp only [wrapInt32_zero] at h
        exact ih hrest h
    · rw [if_neg hm] at h
      exact ih hrest h

theorem countMastersLoop_no_master (pools : List (ElasticsearchClusterNodePool P R))
    (hno : ∀ np ∈ pools, containsElasticsearchRole (sliceElems np.Roles) ElasticsearchRoleMaster = false)
    (masters : Int) : countMastersLoop pools masters = some masters := by
  induction pools with
  | nil => simp [countMastersLoop]
  | cons np rest ih =>
    simp only [countMastersLoop]
    rw [hno np (List.mem_cons_self _ _)]
    simpa using ih (fun q hq => hno q (List.mem_cons_of_mem _ hq))

/-! ### The node-pool loop -/

theorem replicasErrors_nil (np : ElasticsearchClusterNodePool P R) (fldPath : Path)
    (h : replicasErrors np fldPath = []) : ∀ r, np.Replicas = some r → 0 ≤ r := by
  intro r hr
  unfold replicasErrors at h
  rw [hr] at h
  by_contra hneg
  have hlt : r < 0 := by omega
  simp [hlt] at h

theorem validateNodePool_nil (env : Collaborators M C I P V)
    (np : ElasticsearchClusterNodePool P R) (fldPath : Path)
    (h : ValidateElasticsearchClusterNodePool env np fldPath = []) :
    ∀ r, np.Replicas = some r → 0 ≤ r := by
  rw [validateNodePool_eq] at h
  simp only [List.append_eq_nil] at h
  exact replicasErrors_nil np fldPath h.2

theorem validateNodePoolsLoop_nil (env : Collaborators M C I P V) (npPath : Path)
    (pools : List (ElasticsearchClusterNodePool P R)) :
    ∀ (i : Nat) (allNames : List String),
      validateNodePoolsLoop env npPath pools i allNames [] = [] →
        (∀ np ∈ pools, np.Name ∉ allNames) ∧
        (pools.map (fun np => np.Name)).Nodup ∧
        ∀ np ∈ pools, ∀ r, np.Replicas = some r → 0 ≤ r := by
  induction pools with
  | nil => intro i allNames _; simp
  | cons np rest ih =>
    intro i allNames h
    simp only [validateNodePoolsLoop] at h
    by_cases hmem : np.Name ∈ allNames
    · rw [if_pos hmem, validateNodePoolsLoop_append] at h
      simp at h
    · rw [if_neg hmem, validateNodePoolsLoop_append] at h
      simp only [List.nil_append, List.append_eq_nil] at h
      obtain ⟨h1, h2, h3⟩ := ih (i + 1) (np.Name :: allNames) h.2
      refine ⟨?_, ?_, ?_⟩
      · intro q hq
        rcases List.mem_cons.1 hq with rfl | hq
        · exact hmem
        · exact fun hin => h1 q hq (List.mem_cons_of_mem _ hin)
      · simp only [List.map_cons, List.nodup_cons]
        refine ⟨?_, h2⟩
        intro hin
        obtain ⟨q, hq, hqn⟩ := List.mem_map.1 hin
        exact h1 q hq (by rw [hqn]; exact List.mem_cons_self _ _)
      · intro q hq
        rcases List.mem_cons.1 hq with rfl | hq
        · exact validateNodePool_nil env q _ h.1
        · exact h3 q hq

/-! ### The quorum decision table -/

theorem minimumMastersSwitch_nil (fldPath npPath : Path) (mm : Option Int) (N Q : Int)
    (h : minimumMastersSwitch fldPath npPath mm N Q = []) :
    N ≠ 0 ∧ ∀ m, mm = some m → m ≠ 0 ∧ Q ≤ m ∧ m ≤ N := by
  unfold minimumMastersSwitch at h
  by_cases hN : N = 0
  · simp [hN] at h
  · refine ⟨hN, ?_⟩
    intro m hm
    subst hm
    simp only [hN, if_false] at h
    by_cases h0 : m = 0
    · simp [h0] at h
    · by_cases h1 : m < Q
      · simp [h0, h1] at h
      · by_cases h2 : m > N
        · simp [h0, h1, h2] at h
        · exact ⟨h0, by omega, by omega⟩

theorem majority_no_disjoint (N m : Int) (hm : 1 ≤ m) (h2 : 2 * m > N)
    (A B : Finset (Fin N.toNat)) (hA : A.card = m.toNat) (hB : B.card = m.toNat) :
    ¬ Disjoint A B := by
  intro hd
  have hcard : (A ∪ B).card = A.card + B.card := Finset.card_union_of_disjoint hd
  have hle : (A ∪ B).card ≤ N.toNat := by
    simpa using Finset.card_le_univ (A ∪ B)
  omega

/-- C1: soundness of acceptance. When `ValidateElasticsearchClusterSpec`
returns the empty error list, the data-model invariant holds: pairwise
distinct pool names, a Master pool with at least one replica, a version that
is not the unset value, and a set `MinimumMasters` that is nonzero and between
the quorum of the master count and the master count, hence a strict majority
for which no two disjoint groups of that many masters exist. -/
theorem validateSpec_accept_sound (env : Collaborators M C I P V)
    (spec : ElasticsearchClusterSpec C I P R V) (fldPath : Path)
    (h : ValidateElasticsearchClusterSpec env spec fldPath = some []) :
    SpecInvariant env spec := by
  rw [validateSpec_eq] at h
  cases hc : countElasticsearchMasters spec.NodePools with
  | none => rw [hc] at h; simp at h
  | some N =>
    rw [hc] at h
    simp only [Option.map_some', Option.some.injEq, List.append_eq_nil] at h
    obtain ⟨⟨⟨⟨_, _⟩, hloop⟩, hsw⟩, hver⟩ := h
    obtain ⟨_, hnodup, hrep⟩ := validateNodePoolsLoop_nil env _ spec.NodePools 0 [] hloop
    obtain ⟨hN, hmm⟩ := minimumMastersSwitch_nil _ _ _ _ _ hsw
    refine ⟨hnodup, ?_, ?_, N, hc, ?_, ?_⟩
    · by_contra hnone
      apply hN
      apply countMastersLoop_all_zero spec.NodePools _ N hc
      intro np hnp hmaster r hr
      by_contra hr0
      apply hnone
      have := hrep np hnp r hr
      exact ⟨np, hnp, hmaster, r, hr, by omega⟩
    · unfold versionErrors at hver
      cases hv : env.VersionEqualEmptySemver spec.Version with
      | false => rfl
      | true => simp [hv] at hver
    · unfold util.CalculateQuorum
      refine ⟨by omega, ?_⟩
      intro q hq
      omega
    · intro m hm
      obtain ⟨h0, h1, h2⟩ := hmm m hm
      unfold util.CalculateQuorum at h1
      have h3 : 2 * m > N := by omega
      refine ⟨h0, ?_, h2, h3, ?_⟩
      · unfold util.CalculateQuorum; exact h1
      · intro A B hA hB
        exact majority_no_disjoint N m (by omega) h3 A B hA hB

/-- Witness of C1: a specification with three masters and `MinimumMasters = 2`
is accepted, and the invariant holds for it. -/
theorem validateSpec_accept_sound_witness :
    ValidateElasticsearchClusterSpec acceptAll
        (exampleSpec [examplePool "es-master" (some 3) ["master"] none] (some 2) false)
        (Path.NewPath "spec") = some [] ∧
      SpecInvariant acceptAll
        (exampleSpec [examplePool "es-master" (some 3) ["master"] none] (some 2) false) :=
  ⟨by decide, validateSpec_accept_sound acceptAll _ (Path.NewPath "spec") (by decide)⟩

/-! ### Where the errors of the node pools sit -/

theorem validateRolesLoop_mem (rolesPath : Path) (roles : List ElasticsearchClusterRole) (e : Error) :
    ∀ (i : Nat), e ∈ validateRolesLoop rolesPath roles i [] → ∃ j, e.Field = rolesPath.Index j := by
  induction roles with
  | nil => intro i h; simp [validateRolesLoop] at h
  | cons r rest ih =>
    intro i h
    simp only [validateRolesLoop] at h
    rw [validateRolesLoop_append] at h
    rcases List.mem_append.1 h with h | h
    · refine ⟨i, ?_⟩
      unfold ValidateElasticsearchClusterRole at h
      simp only [List.nil_append] at h
      split_ifs at h <;> simp_all [NotSupported]
    · exact ih (i + 1) h

theorem validateNodePool_mem (env : Collaborators M C I P V)
    (np : ElasticsearchClusterNodePool P R) (fldPath : Path) (e : Error)
    (h : e ∈ ValidateElasticsearchClusterNodePool env np fldPath) :
    e ∈ env.ValidateDNS1123Subdomain np.Name (fldPath.Child "name") ∨
    (∃ pc, np.Persistence = some pc ∧ e ∈ env.ValidatePersistenceConfig pc (fldPath.Child "persistence")) ∨
    e.Field = fldPath.Child "roles" ∨
    (∃ j, e.Field = (fldPath.Child "roles").Index j) ∨
    e.Field = fldPath.Child "replicas" := by
  rw [validateNodePool_eq] at h
  simp only [List.mem_append] at h
  rcases h with (((h | h) | h) | h) | h
  · exact Or.inl h
  · cases hp : np.Persistence with
    | none => rw [hp] at h; simp at h
    | some pc => rw [hp] at h; exact Or.inr (Or.inl ⟨pc, rfl, h⟩)
  · split_ifs at h
    · simp only [List.mem_singleton] at h
      subst h
      exact Or.inr (Or.inr (Or.inl rfl))
    · simp at h
  · exact Or.inr (Or.inr (Or.inr (Or.inl (validateRolesLoop_mem _ _ e 0 h))))
  · unfold replicasErrors at h
    cases hr : np.Replicas with
    | none => rw [hr] at h; simp at h
    | some r =>
      rw [hr] at h
      simp only [] at h
      split_ifs at h
      · simp only [List.mem_singleton] at h
        subst h
        exact Or.inr (Or.inr (Or.inr (Or.inr rfl)))
      · simp at h

theorem validateNodePoolsLoop_mem (env : Collaborators M C I P V) (npPath : Path)
    (pools : List (ElasticsearchClusterNodePool P R)) (e : Error) :
    ∀ (i : Nat) (allNames : List String),
      e ∈ validateNodePoolsLoop env npPath pools i allNames [] →
        ∃ k, ∃ np ∈ pools, e.Field = (npPath.Index k).Child "name" ∨
          e ∈ ValidateElasticsearchClusterNodePool env np (npPath.Index k) := by
  induction pools with
  | nil => intro i allNames h; simp [validateNodePoolsLoop] at h
  | cons np rest ih =>
    intro i allNames h
    simp only [validateNodePoolsLoop] at h
    by_cases hmem : np.Name ∈ allNames
    · rw [if_pos hmem, validateNodePoolsLoop_append] at h
      simp only [List.nil_append, List.mem_append, List.mem_singleton] at h
      rcases h with (h | h) | h
      · exact ⟨i, np, List.mem_cons_self _ _, Or.inl (by rw [h]; rfl)⟩
      · exact ⟨i, np, List.mem_cons_self _ _, Or.inr h⟩
      · obtain ⟨k, q, hq, hk⟩ := ih (i + 1) allNames h
        exact ⟨k, q, List.mem_cons_of_mem _ hq, hk⟩
    · rw [if_neg hmem, validateNodePoolsLoop_append] at h
      simp only [List.nil_append, List.mem_append] at h
      rcases h with h | h
      · exact ⟨i, np, List.mem_cons_self _ _, Or.inr h⟩
      · obtain ⟨k, q, hq, hk⟩ := ih (i + 1) _ h
        exact ⟨k, q, List.mem_cons_of_mem _ hq, hk⟩

theorem quorumError_returnedByCollaborator (env : Collaborators M C I P V)
    (spec : ElasticsearchClusterSpec C I P R V) (fldPath : Path) (e : Error)
    (hq : IsQuorumError fldPath e)
    (h : e ∈ env.ValidateNavigatorClusterConfig spec.NavigatorClusterConfig fldPath ++
        imageErrors env spec fldPath ++
        validateNodePoolsLoop env (fldPath.Child "nodePools") spec.NodePools 0 [] [] ++
        versionErrors env spec fldPath) :
    ReturnedByCollaborator env spec e := by
  simp only [List.mem_append] at h
  rcases h with ((h | h) | h) | h
  · exact Or.inl ⟨fldPath, h⟩
  · unfold imageErrors at h
    cases hi : spec.Image with
    | none => rw [hi] at h; simp at h
    | some img => rw [hi] at h; exact Or.inr (Or.inl ⟨img, _, hi, h⟩)
  · obtain ⟨k, np, hnp, hk⟩ := validateNodePoolsLoop_mem env _ spec.NodePools e 0 [] h
    rcases hk with hk | hk
    · rcases hq with ⟨_, hq⟩ | hq <;> rw [hk] at hq <;> simp at hq
    · rcases validateNodePool_mem env np _ e hk with hk | ⟨pc, hpc, hk⟩ | hk | ⟨j, hk⟩ | hk
      · exact Or.inr (Or.inr (Or.inl ⟨np, hnp, _, hk⟩))
      · exact Or.inr (Or.inr (Or.inr ⟨np, hnp, pc, _, hpc, hk⟩))
      · rcases hq with ⟨_, hq⟩ | hq <;> rw [hk] at hq <;> simp at hq
      · rcases hq with ⟨_, hq⟩ | hq <;> rw [hk] at hq <;> simp at hq
      · rcases hq with ⟨_, hq⟩ | hq <;> rw [hk] at hq <;> simp at hq
  · unfold versionErrors at h
    split_ifs at h
    · simp only [List.mem_singleton] at h
      subst h
      rcases hq with ⟨_, hq⟩ | hq <;> simp [Required] at hq
    · simp at h

/-! ### The outcomes of the quorum decision table -/

/-- C2, as stated, fails at one master: the quorum of 1 is 1, so
`MinimumMasters = Q - 1` is 0, the result is the single error
"cannot be zero", and it holds no error with the split-brain detail. -/
theorem splitBrain_fails_at_one_master :
    countElasticsearchMasters [examplePool "es-master" (some 1) ["master"] none] = some 1 ∧
    (exampleSpec [examplePool "es-master" (some 1) ["master"] none]
      (some (util.CalculateQuorum 1 - 1)) false).MinimumMasters = some (util.CalculateQuorum 1 - 1) ∧
    ValidateElasticsearchClusterSpec acceptAll
      (exampleSpec [examplePool "es-master" (some 1) ["master"] none]
        (some (util.CalculateQuorum 1 - 1)) false) (Path.NewPath "spec") =
      some [Invalid ((Path.NewPath "spec").Child "minimumMasters") (Value.int32 0) "cannot be zero"] ∧
    Invalid ((Path.NewPath "spec").Child "minimumMasters") (Value.int32 (util.CalculateQuorum 1 - 1))
        ("must be a minimum of " ++ toString (util.CalculateQuorum 1) ++
          " to avoid a split brain scenario") ∉
      [Invalid ((Path.NewPath "spec").Child "minimumMasters") (Value.int32 0) "cannot be zero"] := by
  refine ⟨by decide, rfl, by decide, by decide⟩

/-- C2, amended: for every master count `N ≥ 2` with quorum `Q`, a
specification whose master count is `N` and whose `MinimumMasters` is `Q - 1`
makes `ValidateElasticsearchClusterSpec` return a list that contains the
`Invalid` error at `path.minimumMasters` with detail
"must be a minimum of Q to avoid a split brain scenario". -/
theorem splitBrain_below_quorum (env : Collaborators M C I P V)
    (spec : ElasticsearchClusterSpec C I P R V) (fldPath : Path) (N : Int)
    (hN : 2 ≤ N) (hc : countElasticsearchMasters spec.NodePools = some N)
    (hm : spec.MinimumMasters = some (util.CalculateQuorum N - 1)) :
    ∃ errs, ValidateElasticsearchClusterSpec env spec fldPath = some errs ∧
      Invalid (fldPath.Child "minimumMasters") (Value.int32 (util.CalculateQuorum N - 1))
        ("must be a minimum of " ++ toString (util.CalculateQuorum N) ++
          " to avoid a split brain scenario") ∈ errs := by
  rw [validateSpec_eq, hc]
  refine ⟨_, rfl, ?_⟩
  have hsw : minimumMastersSwitch fldPath (fldPath.Child "nodePools") spec.MinimumMasters N
      (util.CalculateQuorum N) =
      [Invalid (fldPath.Child "minimumMasters") (Value.int32 (util.CalculateQuorum N - 1))
        ("must be a minimum of " ++ toString (util.CalculateQuorum N) ++
          " to avoid a split brain scenario")] := by
    have h1 : N ≠ 0 := by omega
    have h2 : util.CalculateQuorum N - 1 ≠ 0 := by unfold util.CalculateQuorum; omega
    have h3 : util.CalculateQuorum N - 1 < util.CalculateQuorum N := by omega
    rw [hm]
    simp only [minimumMastersSwitch, if_neg h1, if_neg h2, if_pos h3]
  simp only [hsw]
  simp

/-- Witness of the amended C2: two masters, quorum 2, `MinimumMasters = 1`. -/
theorem splitBrain_below_quorum_witness :
    (2 : Int) ≤ 2 ∧
    countElasticsearchMasters (exampleSpec [examplePool "es-master" (some 2) ["master"] none]
      (some 1) false).NodePools = some 2 ∧
    ∃ errs, ValidateElasticsearchClusterSpec acceptAll
        (exampleSpec [examplePool "es-master" (some 2) ["master"] none] (some 1) false)
        (Path.NewPath "spec") = some errs ∧
      Invalid ((Path.NewPath "spec").Child "minimumMasters") (Value.int32 (util.CalculateQuorum 2 - 1))
        ("must be a minimum of " ++ toString (util.CalculateQuorum 2) ++
          " to avoid a split brain scenario") ∈ errs :=
  ⟨by decide, by decide,
    splitBrain_below_quorum acceptAll
      (exampleSpec [examplePool "es-master" (some 2) ["master"] none] (some 1) false)
      (Path.NewPath "spec") 2 (by decide) (by decide) (by decide)⟩

/-- C3: when the master count `N` is at least 1 and `MinimumMasters` is unset
or lies between the quorum of `N` and `N`, the quorum decision table appends
nothing: the result is the errors of the configuration, image, node-pool and
version steps only, and any `Invalid` error at `path.nodePools` or error at
`path.minimumMasters` in it was returned by a collaborator validator. -/
theorem quorum_table_silent (env : Collaborators M C I P V)
    (spec : ElasticsearchClusterSpec C I P R V) (fldPath : Path) (N : Int)
    (hN : 1 ≤ N) (hc : countElasticsearchMasters spec.NodePools = some N)
    (hm : spec.MinimumMasters = none ∨
      ∃ m, spec.MinimumMasters = some m ∧ util.CalculateQuorum N ≤ m ∧ m ≤ N) :
    minimumMastersSwitch fldPath (fldPath.Child "nodePools") spec.MinimumMasters N
      (util.CalculateQuorum N) = [] ∧
    ∃ errs, ValidateElasticsearchClusterSpec env spec fldPath = some errs ∧
      errs = env.ValidateNavigatorClusterConfig spec.NavigatorClusterConfig fldPath ++
        imageErrors env spec fldPath ++
        validateNodePoolsLoop env (fldPath.Child "nodePools") spec.NodePools 0 [] [] ++
        versionErrors env spec fldPath ∧
      ∀ e ∈ errs, IsQuorumError fldPath e → ReturnedByCollaborator env spec e := by
  have hsw : minimumMastersSwitch fldPath (fldPath.Child "nodePools") spec.MinimumMasters N
      (util.CalculateQuorum N) = [] := by
    have h1 : N ≠ 0 := by omega
    rcases hm with hm | ⟨m, hm, hq, hle⟩
    · rw [hm]; simp [minimumMastersSwitch, h1]
    · have h2 : m ≠ 0 := by unfold util.CalculateQuorum at hq; omega
      have h3 : ¬ m < util.CalculateQuorum N := by omega
      have h4 : ¬ m > N := by omega
      rw [hm]
      simp only [minimumMastersSwitch, if_neg h1, if_neg h2, if_neg h3, if_neg h4]
  refine ⟨hsw, _, ?_, rfl, ?_⟩
  · rw [validateSpec_eq, hc, Option.map_some', hsw, List.append_nil]
  · intro e he hq
    exact quorumError_returnedByCollaborator env spec fldPath e hq he

/-- Witness of C3: three masters and `MinimumMasters = 2`. -/
theorem quorum_table_silent_witness :
    (1 : Int) ≤ 3 ∧
    countElasticsearchMasters (exampleSpec [examplePool "es-master" (some 3) ["master"] none]
      (some 2) false).NodePools = some 3 ∧
    minimumMastersSwitch (Path.NewPath "spec") ((Path.NewPath "spec").Child "nodePools")
      (exampleSpec [examplePool "es-master" (some 3) ["master"] none] (some 2) false).MinimumMasters 3
      (util.CalculateQuorum 3) = [] :=
  ⟨by decide, by decide,
    (quorum_table_silent acceptAll
      (exampleSpec [examplePool "es-master" (some 3) ["master"] none] (some 2) false)
      (Path.NewPath "spec") 3 (by decide) (by decide)
      (Or.inr ⟨2, rfl, by decide, by decide⟩)).1⟩

/-- C4: when no node pool carries the Master role, whatever `MinimumMasters`
is, `ValidateElasticsearchClusterSpec` returns a list that contains the
`Invalid` error at `path.nodePools` with detail
"must be at least one master node". -/
theorem no_master_invalid (env : Collaborators M C I P V)
    (spec : ElasticsearchClusterSpec C I P R V) (fldPath : Path)
    (hno : ∀ np ∈ spec.NodePools,
      containsElasticsearchRole (sliceElems np.Roles) ElasticsearchRoleMaster = false) :
    ∃ errs, ValidateElasticsearchClusterSpec env spec fldPath = some errs ∧
      Invalid (fldPath.Child "nodePools") (Value.int32 0) "must be at least one master node" ∈ errs := by
  have hc : countElasticsearchMasters spec.NodePools = some 0 :=
    countMastersLoop_no_master spec.NodePools hno 0
  rw [validateSpec_eq, hc]
  refine ⟨_, rfl, ?_⟩
  simp [minimumMastersSwitch]

/-- Witness of C4: a single data pool and `MinimumMasters = 1`. -/
theorem no_master_invalid_witness :
    (∀ np ∈ (exampleSpec [examplePool "es-data" (some 2) ["data"] none] (some 1) false).NodePools,
      containsElasticsearchRole (sliceElems np.Roles) ElasticsearchRoleMaster = false) ∧
    ∃ errs, ValidateElasticsearchClusterSpec acceptAll
        (exampleSpec [examplePool "es-data" (some 2) ["data"] none] (some 1) false)
        (Path.NewPath "spec") = some errs ∧
      Invalid ((Path.NewPath "spec").Child "nodePools") (Value.int32 0)
        "must be at least one master node" ∈ errs :=
  ⟨by decide,
    no_master_invalid acceptAll
      (exampleSpec [examplePool "es-data" (some 2) ["data"] none] (some 1) false)
      (Path.NewPath "spec") (by decide)⟩

/-! ### The errors of the update check -/

theorem mem_immutabilityErrors [DecidableEq P] [DecidableEq R] (idxPath : Path)
    (newNp oldNp : ElasticsearchClusterNodePool P R) (e : Error) :
    e ∈ immutabilityErrors idxPath newNp oldNp ↔
      (e = Forbidden (idxPath.Child "persistence")
          "cannot modify persistence configuration once enabled" ∧
        oldNp.Persistence ≠ none ∧ newNp.Persistence ≠ oldNp.Persistence) ∨
      (e = Forbidden (Path.NewPath "spec")
          "updates to nodepool for fields other than 'replicas' and 'persistence' are forbidden." ∧
        (newNp.Name ≠ oldNp.Name ∨ newNp.Roles ≠ oldNp.Roles ∨ newNp.Resources ≠ oldNp.Resources)) := by
  unfold immutabilityErrors
  simp only [List.mem_append]
  constructor
  · rintro (h | h)
    · split_ifs at h with hc
      · simp only [List.mem_singleton] at h
        exact Or.inl ⟨h, hc⟩
      · simp at h
    · split_ifs at h with hc
      · simp only [List.mem_singleton] at h
        exact Or.inr ⟨h, hc⟩
      · simp at h
  · rintro (⟨he, hc⟩ | ⟨he, hc⟩)
    · left; rw [if_pos hc]; simp [he]
    · right; rw [if_pos hc]; simp [he]

theorem mem_updateSteps_flatten [DecidableEq P] [DecidableEq R] (npPath : Path)
    (oldPools newPools : List (ElasticsearchClusterNodePool P R)) (i : Nat) (e : Error) :
    e ∈ (updateSteps npPath oldPools newPools i).flatten ↔
      ∃ k newNp, newPools[k]? = some newNp ∧ e ∈ updateStep (npPath.Index (i + k)) oldPools newNp := by
  rw [List.mem_flatten]
  constructor
  · rintro ⟨l, hl, hel⟩
    obtain ⟨k, hk⟩ := List.mem_iff_getElem?.1 hl
    rw [updateSteps_getElem?] at hk
    cases hnp : newPools[k]? with
    | none => rw [hnp] at hk; simp at hk
    | some newNp =>
      rw [hnp] at hk
      simp only [Option.map_some', Option.some.injEq] at hk
      exact ⟨k, newNp, hnp, by rw [hk]; exact hel⟩
  · rintro ⟨k, newNp, hnp, hel⟩
    refine ⟨_, List.mem_iff_getElem?.2 ⟨k, ?_⟩, hel⟩
    rw [updateSteps_getElem?, hnp]
    rfl

theorem updateSteps_forbidden [DecidableEq P] [DecidableEq R] (npPath : Path)
    (oldPools newPools : List (ElasticsearchClusterNodePool P R)) (i : Nat) (e : Error)
    (h : e ∈ (updateSteps npPath oldPools newPools i).flatten) :
    e.Kind = ErrorType.ErrorTypeForbidden := by
  obtain ⟨k, newNp, _, hel⟩ := (mem_updateSteps_flatten npPath oldPools newPools i e).1 h
  unfold updateStep at hel
  cases hf : firstSameName newNp oldPools with
  | none => rw [hf] at hel; simp at hel
  | some oldNp =>
    rw [hf] at hel
    rcases (mem_immutabilityErrors _ newNp oldNp e).1 hel with ⟨he, _⟩ | ⟨he, _⟩ <;> rw [he] <;> rfl

theorem updateSteps_flatten_nil [DecidableEq P] [DecidableEq R] (npPath : Path)
    (oldPools newPools : List (ElasticsearchClusterNodePool P R)) (i : Nat)
    (h : ∀ newNp ∈ newPools, ∀ idxPath, updateStep idxPath oldPools newNp = []) :
    (updateSteps npPath oldPools newPools i).flatten = [] := by
  apply List.eq_nil_iff_forall_not_mem.2
  intro e he
  obtain ⟨k, newNp, hk, hel⟩ := (mem_updateSteps_flatten npPath oldPools newPools i e).1 he
  have hmem : newNp ∈ newPools := List.mem_iff_getElem?.2 ⟨k, hk⟩
  rw [h newNp hmem] at hel
  simp at hel

theorem firstSameName_some (newNp oldNp : ElasticsearchClusterNodePool P R)
    (oldPools : List (ElasticsearchClusterNodePool P R))
    (h : firstSameName newNp oldPools = some oldNp) :
    oldNp ∈ oldPools ∧ newNp.Name = oldNp.Name := by
  unfold firstSameName at h
  refine ⟨List.mem_of_find?_eq_some h, ?_⟩
  have := List.find?_some h
  simpa using this

/-- C5: in `ValidateElasticsearchClusterUpdate`, for a new pool at index `i`
whose first old pool of the same name is `oldNp`, the `Forbidden` error at
`spec.nodePools[i].persistence` with detail "cannot modify persistence
configuration once enabled" is among the errors appended after those of
`ValidateElasticsearchCluster(new)` if and only if the old persistence is
non-nil and the new persistence is not deeply equal to it; removing
persistence is rejected, and adding it where the old pool had none is not. -/
theorem persistence_forbidden_iff [DecidableEq P] [DecidableEq R]
    (env : Collaborators M C I P V) (old new : ElasticsearchCluster M C I P R V)
    (createErrs : ErrorList) (hv : ValidateElasticsearchCluster env new = some createErrs) :
    ∃ appended, ValidateElasticsearchClusterUpdate env old new = some (createErrs ++ appended) ∧
      ∀ (i : Nat) (newNp oldNp : ElasticsearchClusterNodePool P R),
        new.Spec.NodePools[i]? = some newNp →
        firstSameName newNp old.Spec.NodePools = some oldNp →
        ((Forbidden ((((Path.NewPath "spec").Child "nodePools").Index i).Child "persistence")
            "cannot modify persistence configuration once enabled" ∈ appended ↔
          oldNp.Persistence ≠ none ∧ newNp.Persistence ≠ oldNp.Persistence) ∧
        (oldNp.Persistence ≠ none → newNp.Persistence = none →
          Forbidden ((((Path.NewPath "spec").Child "nodePools").Index i).Child "persistence")
            "cannot modify persistence configuration once enabled" ∈ appended) ∧
        (oldNp.Persistence = none →
          Forbidden ((((Path.NewPath "spec").Child "nodePools").Index i).Child "persistence")
            "cannot modify persistence configuration once enabled" ∉ appended)) := by
  refine ⟨_, by rw [validateUpdate_eq, hv]; rfl, ?_⟩
  intro i newNp oldNp hi hf
  have key : Forbidden ((((Path.NewPath "spec").Child "nodePools").Index i).Child "persistence")
        "cannot modify persistence configuration once enabled" ∈
        (updateSteps ((Path.NewPath "spec").Child "nodePools") old.Spec.NodePools
          new.Spec.NodePools 0).flatten ↔
      oldNp.Persistence ≠ none ∧ newNp.Persistence ≠ oldNp.Persistence := by
    rw [mem_updateSteps_flatten]
    constructor
    · rintro ⟨k, np, hk, hel⟩
      unfold updateStep at hel
      cases hfk : firstSameName np old.Spec.NodePools with
      | none => rw [hfk] at hel; simp at hel
      | some o =>
        rw [hfk] at hel
        rcases (mem_immutabilityErrors _ np o _).1 hel with ⟨he, hc⟩ | ⟨he, _⟩
        · simp only [Forbidden, Error.mk.injEq, Path.Child.injEq, Path.Index.injEq, true_and,
            and_true] at he
          have hki : k = i := by omega
          subst hki
          rw [hi] at hk
          cases hk
          rw [hf] at hfk
          cases hfk
          exact hc
        · simp [Forbidden] at he
    · intro hc
      refine ⟨i, newNp, hi, ?_⟩
      unfold updateStep
      rw [hf]
      simp only [Nat.zero_add]
      exact (mem_immutabilityErrors _ newNp oldNp _).2 (Or.inl ⟨rfl, hc⟩)
  refine ⟨key, ?_, ?_⟩
  · intro ho hn
    exact key.2 ⟨ho, by rw [hn]; exact fun h => ho h.symm⟩
  · intro ho hmem
    exact (key.1 hmem).1 ho

/-- Witness of C5: the persistence of the pool "es-data" is removed. -/
theorem persistence_forbidden_iff_witness :
    ValidateElasticsearchCluster acceptAll
        (exampleCluster [masterPoolThree, dataPoolWithoutPersistence] none false) = some [] ∧
      ∃ appended, ValidateElasticsearchClusterUpdate acceptAll
        (exampleCluster [masterPoolThree, dataPoolWithPersistence] none false)
        (exampleCluster [masterPoolThree, dataPoolWithoutPersistence] none false) =
          some ([] ++ appended) :=
  ⟨by decide,
    (persistence_forbidden_iff acceptAll
      (exampleCluster [masterPoolThree, dataPoolWithPersistence] none false)
      (exampleCluster [masterPoolThree, dataPoolWithoutPersistence] none false) []
      (by decide)).imp (fun _ h => h.1)⟩

theorem count_generic_immutabilityErrors [DecidableEq P] [DecidableEq R] (idxPath : Path)
    (newNp oldNp : ElasticsearchClusterNodePool P R) :
    (immutabilityErrors idxPath newNp oldNp).count
        (Forbidden (Path.NewPath "spec")
          "updates to nodepool for fields other than 'replicas' and 'persistence' are forbidden.") =
      if newNp.Name ≠ oldNp.Name ∨ newNp.Roles ≠ oldNp.Roles ∨ newNp.Resources ≠ oldNp.Resources
      then 1 else 0 := by
  unfold immutabilityErrors
  rw [List.count_append]
  have h1 : ∀ l : ErrorList, (l = [] ∨ l = [Forbidden (idxPath.Child "persistence")
      "cannot modify persistence configuration once enabled"]) →
      l.count (Forbidden (Path.NewPath "spec")
        "updates to nodepool for fields other than 'replicas' and 'persistence' are forbidden.") = 0 := by
    rintro l (rfl | rfl)
    · rfl
    · simp [List.count_cons, Forbidden]
  rw [h1 _ (by split_ifs <;> simp)]
  split_ifs <;> simp

/-- C6: in `ValidateElasticsearchClusterUpdate` the errors appended after those
of `ValidateElasticsearchCluster(new)` are one block per new pool, in order.
For a new pool whose first old pool of the same name is `oldNp`, the block
holds exactly one `Forbidden` error at "spec" with detail "updates to nodepool
for fields other than 'replicas' and 'persistence' are forbidden." when the
two pools differ in a field other than replicas and persistence, and none when
they agree on those fields; a pool without an old pool of its name has an
empty block. -/
theorem other_fields_forbidden [DecidableEq P] [DecidableEq R]
    (env : Collaborators M C I P V) (old new : ElasticsearchCluster M C I P R V)
    (createErrs : ErrorList) (hv : ValidateElasticsearchCluster env new = some createErrs) :
    ∃ blocks : List ErrorList, blocks.length = new.Spec.NodePools.length ∧
      ValidateElasticsearchClusterUpdate env old new = some (createErrs ++ blocks.flatten) ∧
      ∀ (i : Nat) (newNp : ElasticsearchClusterNodePool P R), new.Spec.NodePools[i]? = some newNp →
        (firstSameName newNp old.Spec.NodePools = none → blocks[i]? = some []) ∧
        ∀ oldNp, firstSameName newNp old.Spec.NodePools = some oldNp →
          ∃ block, blocks[i]? = some block ∧
            ((newNp.Name ≠ oldNp.Name ∨ newNp.Roles ≠ oldNp.Roles ∨
                newNp.Resources ≠ oldNp.Resources) →
              block.count (Forbidden (Path.NewPath "spec")
                "updates to nodepool for fields other than 'replicas' and 'persistence' are forbidden.")
                = 1) ∧
            ((newNp.Name = oldNp.Name ∧ newNp.Roles = oldNp.Roles ∧
                newNp.Resources = oldNp.Resources) →
              block.count (Forbidden (Path.NewPath "spec")
                "updates to nodepool for fields other than 'replicas' and 'persistence' are forbidden.")
                = 0) := by
  refine ⟨updateSteps ((Path.NewPath "spec").Child "nodePools") old.Spec.NodePools
    new.Spec.NodePools 0, updateSteps_length _ _ _ 0, by rw [validateUpdate_eq, hv]; rfl, ?_⟩
  intro i newNp hi
  have hblock : (updateSteps ((Path.NewPath "spec").Child "nodePools") old.Spec.NodePools
      new.Spec.NodePools 0)[i]? =
      some (updateStep ((((Path.NewPath "spec").Child "nodePools")).Index (0 + i))
        old.Spec.NodePools newNp) := by
    rw [updateSteps_getElem?, hi]; rfl
  refine ⟨?_, ?_⟩
  · intro hf
    rw [hblock]
    unfold updateStep
    rw [hf]
  · intro oldNp hf
    refine ⟨_, hblock, ?_, ?_⟩
    · intro hd
      unfold updateStep
      rw [hf]
      simp only []
      rw [count_generic_immutabilityErrors, if_pos hd]
    · intro hs
      unfold updateStep
      rw [hf]
      simp only []
      rw [count_generic_immutabilityErrors, if_neg]
      rintro (h | h | h)
      · exact h hs.1
      · exact h hs.2.1
      · exact h hs.2.2

/-- Witness of C6: the Data role is added to the pool "es-master". -/
theorem other_fields_forbidden_witness :
    ValidateElasticsearchCluster acceptAll (exampleCluster [masterDataPoolThree] none false) =
        some [] ∧
      ∃ blocks : List ErrorList, blocks.length = 1 ∧
        ValidateElasticsearchClusterUpdate acceptAll (exampleCluster [masterPoolThree] none false)
          (exampleCluster [masterDataPoolThree] none false) = some ([] ++ blocks.flatten) :=
  ⟨by decide,
    (other_fields_forbidden acceptAll (exampleCluster [masterPoolThree] none false)
      (exampleCluster [masterDataPoolThree] none false) [] (by decide)).imp
      (fun _ h => ⟨h.1, h.2.1⟩)⟩

/-! ### Updates that are accepted -/

theorem validateCluster_nil_nodup (env : Collaborators M C I P V)
    (esc : ElasticsearchCluster M C I P R V)
    (h : ValidateElasticsearchCluster env esc = some []) :
    (esc.Spec.NodePools.map (fun np => np.Name)).Nodup := by
  rw [validateCluster_eq, validateSpec_eq] at h
  cases hc : countElasticsearchMasters esc.Spec.NodePools with
  | none => rw [hc] at h; simp at h
  | some N =>
    rw [hc] at h
    simp only [Option.map_some', Option.some.injEq, List.append_eq_nil] at h
    exact (validateNodePoolsLoop_nil env _ esc.Spec.NodePools 0 [] h.2.1.1.2).2.1

theorem forall2_mem_left {α β : Type} {Rel : α → β → Prop} {l₁ : List α} {l₂ : List β}
    (h : List.Forall₂ Rel l₁ l₂) : ∀ a ∈ l₁, ∃ b ∈ l₂, Rel a b := by
  induction h with
  | nil => intro a ha; simp at ha
  | cons hab _ ih =>
    intro a ha
    rcases List.mem_cons.1 ha with rfl | ha
    · exact ⟨_, List.mem_cons_self _ _, hab⟩
    · obtain ⟨b, hb, hr⟩ := ih a ha
      exact ⟨b, List.mem_cons_of_mem _ hb, hr⟩

/-- C7: a replicas-only update is accepted. When
`ValidateElasticsearchCluster(new)` returns no error and the node pools of
`new` are those of `old`, in the same order, with the same names, roles,
persistence and resources (only replica counts may differ),
`ValidateElasticsearchClusterUpdate(old, new)` returns the empty list. -/
theorem replicas_only_update_accepted [DecidableEq P] [DecidableEq R]
    (env : Collaborators M C I P V) (old new : ElasticsearchCluster M C I P R V)
    (hv : ValidateElasticsearchCluster env new = some [])
    (hsame : List.Forall₂
      (fun oldNp newNp => oldNp.Name = newNp.Name ∧ oldNp.Roles = newNp.Roles ∧
        oldNp.Persistence = newNp.Persistence ∧ oldNp.Resources = newNp.Resources)
      old.Spec.NodePools new.Spec.NodePools) :
    ValidateElasticsearchClusterUpdate env old new = some [] := by
  have hnodup := validateCluster_nil_nodup env new hv
  rw [validateUpdate_eq, hv]
  simp only [Option.map_some', List.nil_append, Option.some.injEq]
  apply updateSteps_flatten_nil
  intro newNp hnew idxPath
  unfold updateStep
  cases hf : firstSameName newNp old.Spec.NodePools with
  | none => rfl
  | some oldNp =>
    obtain ⟨hold, hname⟩ := firstSameName_some newNp oldNp _ hf
    obtain ⟨n, hn, hn1, hn2, hn3, hn4⟩ := forall2_mem_left hsame oldNp hold
    have heq : n = newNp :=
      List.inj_on_of_nodup_map hnodup hn hnew (by rw [← hn1, hname])
    subst heq
    apply List.eq_nil_iff_forall_not_mem.2
    intro e he
    rcases (mem_immutabilityErrors idxPath n oldNp e).1 he with ⟨_, _, hc⟩ | ⟨_, hc⟩
    · exact hc hn3.symm
    · rcases hc with hc | hc | hc
      · exact hc hn1.symm
      · exact hc hn2.symm
      · exact hc hn4.symm

/-- Witness of C7: the pool "es-master" goes from three to five replicas. -/
theorem replicas_only_update_accepted_witness :
    ValidateElasticsearchCluster acceptAll (exampleCluster [masterPoolFive] none false) = some [] ∧
      ValidateElasticsearchClusterUpdate acceptAll (exampleCluster [masterPoolThree] none false)
        (exampleCluster [masterPoolFive] none false) = some [] :=
  ⟨by decide,
    replicas_only_update_accepted acceptAll (exampleCluster [masterPoolThree] none false)
      (exampleCluster [masterPoolFive] none false) (by decide)
      (List.Forall₂.cons ⟨rfl, rfl, rfl, rfl⟩ List.Forall₂.nil)⟩

/-- C8: the result of `ValidateElasticsearchClusterUpdate(old, new)` is the
result of `ValidateElasticsearchCluster(new)` followed by errors that all have
kind `Forbidden` (and it aborts exactly when the validation of `new` aborts);
hence an update is accepted only when `new` passes create-validation,
whatever `old` is. -/
theorem update_extends_create [DecidableEq P] [DecidableEq R]
    (env : Collaborators M C I P V) (old new : ElasticsearchCluster M C I P R V) :
    (∃ appended : ErrorList, (∀ e ∈ appended, e.Kind = ErrorType.ErrorTypeForbidden) ∧
      ValidateElasticsearchClusterUpdate env old new =
        (ValidateElasticsearchCluster env new).map (fun createErrs => createErrs ++ appended)) ∧
    (ValidateElasticsearchClusterUpdate env old new = some [] →
      ValidateElasticsearchCluster env new = some []) ∧
    (∀ createErrs, ValidateElasticsearchCluster env new = some createErrs → createErrs ≠ [] →
      ∃ errs, ValidateElasticsearchClusterUpdate env old new = some errs ∧ errs ≠ []) := by
  refine ⟨⟨_, fun e he => updateSteps_forbidden _ _ _ 0 e he, validateUpdate_eq env old new⟩, ?_, ?_⟩
  · intro h
    rw [validateUpdate_eq] at h
    cases hc : ValidateElasticsearchCluster env new with
    | none => rw [hc] at h; simp at h
    | some createErrs =>
      rw [hc] at h
      simp only [Option.map_some', Option.some.injEq, List.append_eq_nil] at h
      rw [h.1]
  · intro createErrs hc hne
    rw [validateUpdate_eq, hc]
    exact ⟨_, rfl, by simp [hne]⟩

/-- Witness of C8: the new cluster has no master, so its create-validation
fails, and the update is not accepted. -/
theorem update_extends_create_witness :
    ∃ errs, ValidateElasticsearchClusterUpdate acceptAll
        (exampleCluster [masterPoolThree] none false)
        (exampleCluster [dataPoolWithPersistence] none false) = some errs ∧ errs ≠ [] :=
  (update_extends_create acceptAll (exampleCluster [masterPoolThree] none false)
    (exampleCluster [dataPoolWithPersistence] none false)).2.2
    [Invalid ((Path.NewPath "spec").Child "nodePools") (Value.int32 0)
      "must be at least one master node"] (by decide) (by decide)

/-! ### Duplicate names in the node-pool loop -/

theorem earlier_cons (np q : ElasticsearchClusterNodePool P R)
    (rest : List (ElasticsearchClusterNodePool P R)) (k : Nat) :
    (∃ j q', j < k + 1 ∧ (np :: rest)[j]? = some q' ∧ q'.Name = q.Name) ↔
      np.Name = q.Name ∨ ∃ j q', j < k ∧ rest[j]? = some q' ∧ q'.Name = q.Name := by
  constructor
  · rintro ⟨j, q', hj, hq', hn⟩
    cases j with
    | zero =>
      simp only [List.getElem?_cons_zero, Option.some.injEq] at hq'
      subst hq'
      exact Or.inl hn
    | succ j =>
      simp only [List.getElem?_cons_succ] at hq'
      exact Or.inr ⟨j, q', by omega, hq', hn⟩
  · rintro (hn | ⟨j, q', hj, hq', hn⟩)
    · exact ⟨0, np, by omega, by simp, hn⟩
    · exact ⟨j + 1, q', by omega, by simpa using hq', hn⟩

theorem validateNodePoolsLoop_blocks (env : Collaborators M C I P V) (npPath : Path)
    (pools : List (ElasticsearchClusterNodePool P R)) :
    ∀ (i : Nat) (allNames : List String),
      ∃ blocks : List ErrorList, blocks.length = pools.length ∧
        validateNodePoolsLoop env npPath pools i allNames [] = blocks.flatten ∧
        ∀ (k : Nat) (np : ElasticsearchClusterNodePool P R), pools[k]? = some np →
          ∃ dup, blocks[k]? =
              some (dup ++ ValidateElasticsearchClusterNodePool env np (npPath.Index (i + k))) ∧
            ((np.Name ∈ allNames ∨ ∃ j q, j < k ∧ pools[j]? = some q ∧ q.Name = np.Name) →
              dup = [Duplicate ((npPath.Index (i + k)).Child "name") (Value.str np.Name)]) ∧
            (¬ (np.Name ∈ allNames ∨ ∃ j q, j < k ∧ pools[j]? = some q ∧ q.Name = np.Name) →
              dup = []) := by
  induction pools with
  | nil =>
    intro i allNames
    exact ⟨[], rfl, by simp [validateNodePoolsLoop], by intro k np hk; simp at hk⟩
  | cons np rest ih =>
    intro i allNames
    by_cases hmem : np.Name ∈ allNames
    · obtain ⟨blocks, hlen, hflat, hidx⟩ := ih (i + 1) allNames
      refine ⟨([Duplicate ((npPath.Index i).Child "name") (Value.str np.Name)] ++
        ValidateElasticsearchClusterNodePool env np (npPath.Index i)) :: blocks, ?_, ?_, ?_⟩
      · simp [hlen]
      · simp only [validateNodePoolsLoop, if_pos hmem]
        rw [validateNodePoolsLoop_append, hflat]
        simp
      · intro k q hk
        cases k with
        | zero =>
          simp only [List.getElem?_cons_zero, Option.some.injEq] at hk
          subst hk
          exact ⟨[Duplicate ((npPath.Index i).Child "name") (Value.str np.Name)], by simp,
            fun _ => by simp, fun hn => absurd (Or.inl hmem) hn⟩
        | succ k =>
          simp only [List.getElem?_cons_succ] at hk
          obtain ⟨dup, hb, hyes, hno⟩ := hidx k q hk
          have hi : i + 1 + k = i + (k + 1) := by omega
          rw [hi] at hb hyes
          refine ⟨dup, by simpa using hb, ?_, ?_⟩
          · rintro (h | h)
            · exact hyes (Or.inl h)
            · rcases (earlier_cons np q rest k).1 h with h | h
              · exact hyes (Or.inl (h ▸ hmem))
              · exact hyes (Or.inr h)
          · intro hn
            apply hno
            rintro (h | h)
            · exact hn (Or.inl h)
            · exact hn (Or.inr ((earlier_cons np q rest k).2 (Or.inr h)))
    · obtain ⟨blocks, hlen, hflat, hidx⟩ := ih (i + 1) (np.Name :: allNames)
      refine ⟨([] ++ ValidateElasticsearchClusterNodePool env np (npPath.Index i)) :: blocks,
        ?_, ?_, ?_⟩
      · simp [hlen]
      · simp only [validateNodePoolsLoop, if_neg hmem]
        rw [validateNodePoolsLoop_append, hflat]
        simp
      · intro k q hk
        cases k with
        | zero =>
          simp only [List.getElem?_cons_zero, Option.some.injEq] at hk
          subst hk
          refine ⟨[], by simp, ?_, fun _ => rfl⟩
          rintro (h | ⟨j, _, hj, _⟩)
          · exact absurd h hmem
          · omega
        | succ k =>
          simp only [List.getElem?_cons_succ] at hk
          obtain ⟨dup, hb, hyes, hno⟩ := hidx k q hk
          have hi : i + 1 + k = i + (k + 1) := by omega
          rw [hi] at hb hyes
          refine ⟨dup, by simpa using hb, ?_, ?_⟩
          · rintro (h | h)
            · exact hyes (Or.inl (List.mem_cons_of_mem _ h))
            · rcases (earlier_cons np q rest k).1 h with h | h
              · exact hyes (Or.inl (by rw [← h]; exact List.mem_cons_self _ _))
              · exact hyes (Or.inr h)
          · intro hn
            apply hno
            rintro (h | h)
            · rcases List.mem_cons.1 h with h | h
              · exact hn (Or.inr ((earlier_cons np q rest k).2 (Or.inl h.symm)))
              · exact hn (Or.inl h)
            · exact hn (Or.inr ((earlier_cons np q rest k).2 (Or.inr h)))

/-- C9: the errors of the node-pool loop of `ValidateElasticsearchClusterSpec`
are one block per pool, in order, placed in the result after the errors of
the configuration and image steps. The block of pool `i` is the `Duplicate`
error at `path.nodePools[i].name` carrying the name, present if and only if a
pool at an earlier index has the same name, followed in either case by all
the errors of `ValidateElasticsearchClusterNodePool` for pool `i` at
`path.nodePools[i]`. The call returns exactly when the master count does. -/
theorem duplicate_iff_earlier_name (env : Collaborators M C I P V)
    (spec : ElasticsearchClusterSpec C I P R V) (fldPath : Path) :
    ∃ (blocks : List ErrorList) (after : Int → ErrorList),
      blocks.length = spec.NodePools.length ∧
      validateNodePoolsLoop env (fldPath.Child "nodePools") spec.NodePools 0 [] [] = blocks.flatten ∧
      ValidateElasticsearchClusterSpec env spec fldPath =
        (countElasticsearchMasters spec.NodePools).map (fun numMasters =>
          env.ValidateNavigatorClusterConfig spec.NavigatorClusterConfig fldPath ++
          imageErrors env spec fldPath ++ blocks.flatten ++ after numMasters) ∧
      ∀ (i : Nat) (np : ElasticsearchClusterNodePool P R), spec.NodePools[i]? = some np →
        ∃ dup, blocks[i]? = some (dup ++
            ValidateElasticsearchClusterNodePool env np ((fldPath.Child "nodePools").Index i)) ∧
          ((∃ j q, j < i ∧ spec.NodePools[j]? = some q ∧ q.Name = np.Name) →
            dup = [Duplicate (((fldPath.Child "nodePools").Index i).Child "name")
              (Value.str np.Name)]) ∧
          ((¬ ∃ j q, j < i ∧ spec.NodePools[j]? = some q ∧ q.Name = np.Name) → dup = []) := by
  obtain ⟨blocks, hlen, hflat, hidx⟩ :=
    validateNodePoolsLoop_blocks env (fldPath.Child "nodePools") spec.NodePools 0 []
  refine ⟨blocks, fun numMasters =>
    minimumMastersSwitch fldPath (fldPath.Child "nodePools") spec.MinimumMasters numMasters
      (util.CalculateQuorum numMasters) ++ versionErrors env spec fldPath, hlen, hflat, ?_, ?_⟩
  · rw [validateSpec_eq, hflat]
    cases countElasticsearchMasters spec.NodePools <;> simp
  · intro i np hi
    obtain ⟨dup, hb, hyes, hno⟩ := hidx i np hi
    simp only [Nat.zero_add, List.not_mem_nil, false_or] at hb hyes hno
    exact ⟨dup, hb, hyes, hno⟩

/-- Witness of C9: the second of two pools named "es-master" gets the
`Duplicate` error, and its own errors follow. -/
theorem duplicate_iff_earlier_name_witness :
    ValidateElasticsearchClusterSpec acceptAll
        (exampleSpec [masterPoolThree, masterPoolFive] none false) (Path.NewPath "spec") =
      some [Duplicate ((((Path.NewPath "spec").Child "nodePools").Index 1).Child "name")
        (Value.str "es-master")] ∧
    ∃ (blocks : List ErrorList) (after : Int → ErrorList), blocks.length = 2 ∧
      ValidateElasticsearchClusterSpec acceptAll
          (exampleSpec [masterPoolThree, masterPoolFive] none false) (Path.NewPath "spec") =
        (countElasticsearchMasters [masterPoolThree, masterPoolFive]).map (fun numMasters =>
          [] ++ [] ++ blocks.flatten ++ after numMasters) :=
  ⟨by decide,
    (duplicate_iff_earlier_name acceptAll
      (exampleSpec [masterPoolThree, masterPoolFive] none false) (Path.NewPath "spec")).imp
      (fun _ h => h.imp (fun _ h => ⟨h.1, h.2.2.1⟩))⟩

/-! ### The version check -/

theorem version_required_when_count_returns (env : Collaborators M C I P V)
    (spec : ElasticsearchClusterSpec C I P R V) (fldPath : Path) (N : Int)
    (hc : countElasticsearchMasters spec.NodePools = some N)
    (hv : env.VersionEqualEmptySemver spec.Version = true) :
    ∃ errs, ValidateElasticsearchClusterSpec env spec fldPath = some errs ∧
      Required (fldPath.Child "version") "must be a semver version" ∈ errs := by
  rw [validateSpec_eq, hc]
  refine ⟨_, rfl, ?_⟩
  simp [versionErrors, hv]

/-- C10, at the failing input: the version is unset, the only pool carries the
Master role and its replica count is absent. `countElasticsearchMasters`
dereferences the nil count, so `ValidateElasticsearchClusterSpec` aborts and
returns no list, hence no `Required` error at `path.version`. -/
theorem version_check_unreached_on_nil_replicas :
    acceptAll.VersionEqualEmptySemver masterWithoutReplicasSpec.Version = true ∧
    countElasticsearchMasters masterWithoutReplicasSpec.NodePools = none ∧
    ValidateElasticsearchClusterSpec acceptAll masterWithoutReplicasSpec (Path.NewPath "spec") = none ∧
    ¬ ∃ errs, ValidateElasticsearchClusterSpec acceptAll masterWithoutReplicasSpec
        (Path.NewPath "spec") = some errs ∧
      Required ((Path.NewPath "spec").Child "version") "must be a semver version" ∈ errs := by
  have h : ValidateElasticsearchClusterSpec acceptAll masterWithoutReplicasSpec
      (Path.NewPath "spec") = none := by decide
  refine ⟨rfl, by decide, h, ?_⟩
  rintro ⟨errs, he, _⟩
  rw [h] at he
  cases he

/-! ### The role check -/

theorem validateRole_supported (r : ElasticsearchClusterRole) (fldPath : Path)
    (h : r = ElasticsearchRoleData ∨ r = ElasticsearchRoleIngest ∨ r = ElasticsearchRoleMaster) :
    ValidateElasticsearchClusterRole r fldPath = [] := by
  unfold ValidateElasticsearchClusterRole
  rcases h with h | h | h <;> simp [h]

theorem validateRole_unsupported (r : ElasticsearchClusterRole) (fldPath : Path)
    (h : ¬ (r = ElasticsearchRoleData ∨ r = ElasticsearchRoleIngest ∨ r = ElasticsearchRoleMaster)) :
    ValidateElasticsearchClusterRole r fldPath =
      [NotSupported fldPath (Value.role r) supportedESClusterRoles] := by
  unfold ValidateElasticsearchClusterRole
  have h1 : ¬ r = ElasticsearchRoleData := fun e => h (Or.inl e)
  have h2 : ¬ r = ElasticsearchRoleIngest := fun e => h (Or.inr (Or.inl e))
  have h3 : ¬ r = ElasticsearchRoleMaster := fun e => h (Or.inr (Or.inr e))
  simp [h1, h2, h3]

/-- C11: `ValidateElasticsearchClusterRole(r, p)` returns the empty list when
`r` is Data, Ingest or Master, and otherwise exactly one error: `NotSupported`
at `p`, carrying `r` and the supported values Data, Ingest, Master in that
order; so it does for the role "client". -/
theorem validateRole_exact (r : ElasticsearchClusterRole) (fldPath : Path) :
    ((r = ElasticsearchRoleData ∨ r = ElasticsearchRoleIngest ∨ r = ElasticsearchRoleMaster) →
      ValidateElasticsearchClusterRole r fldPath = []) ∧
    (¬ (r = ElasticsearchRoleData ∨ r = ElasticsearchRoleIngest ∨ r = ElasticsearchRoleMaster) →
      ValidateElasticsearchClusterRole r fldPath =
        [{ Kind := ErrorType.ErrorTypeNotSupported, Field := fldPath, BadValue := Value.role r,
           Detail := Detail.supportedValues
            [ElasticsearchRoleData, ElasticsearchRoleIngest, ElasticsearchRoleMaster] }]) ∧
    ValidateElasticsearchClusterRole "client" fldPath =
      [{ Kind := ErrorType.ErrorTypeNotSupported, Field := fldPath, BadValue := Value.role "client",
         Detail := Detail.supportedValues
          [ElasticsearchRoleData, ElasticsearchRoleIngest, ElasticsearchRoleMaster] }] := by
  refine ⟨validateRole_supported r fldPath, ?_, ?_⟩
  · intro h
    rw [validateRole_unsupported r fldPath h]
    rfl
  · rw [validateRole_unsupported "client" fldPath (by decide)]
    rfl

/-- Witness of C11: the role "master" is accepted at the path `spec`. -/
theorem validateRole_exact_witness :
    ValidateElasticsearchClusterRole "master" (Path.NewPath "spec") = [] :=
  (validateRole_exact "master" (Path.NewPath "spec")).1 (by decide)

/-! ### More outcomes of the quorum decision table -/

/-- C12: for every master count `N ≥ 1`, a specification whose master count is
`N` and whose `MinimumMasters` is `N + 1` makes
`ValidateElasticsearchClusterSpec` return a list that contains the `Invalid`
error at `path.minimumMasters` with detail
"cannot be greater than the total number of master nodes". -/
theorem minimumMasters_above_total (env : Collaborators M C I P V)
    (spec : ElasticsearchClusterSpec C I P R V) (fldPath : Path) (N : Int)
    (hN : 1 ≤ N) (hc : countElasticsearchMasters spec.NodePools = some N)
    (hm : spec.MinimumMasters = some (N + 1)) :
    ∃ errs, ValidateElasticsearchClusterSpec env spec fldPath = some errs ∧
      Invalid (fldPath.Child "minimumMasters") (Value.int32 (N + 1))
        "cannot be greater than the total number of master nodes" ∈ errs := by
  rw [validateSpec_eq, hc]
  refine ⟨_, rfl, ?_⟩
  have hsw : minimumMastersSwitch fldPath (fldPath.Child "nodePools") spec.MinimumMasters N
      (util.CalculateQuorum N) =
      [Invalid (fldPath.Child "minimumMasters") (Value.int32 (N + 1))
        "cannot be greater than the total number of master nodes"] := by
    have h1 : N ≠ 0 := by omega
    have h2 : N + 1 ≠ 0 := by omega
    have h3 : ¬ N + 1 < util.CalculateQuorum N := by unfold util.CalculateQuorum; omega
    have h4 : N + 1 > N := by omega
    rw [hm]
    simp only [minimumMastersSwitch, if_neg h1, if_neg h2, if_neg h3, if_pos h4]
  simp only [hsw]
  simp

/-- Witness of C12: three masters and `MinimumMasters = 4`. -/
theorem minimumMasters_above_total_witness :
    (1 : Int) ≤ 3 ∧
    countElasticsearchMasters (exampleSpec [masterPoolThree] (some (3 + 1)) false).NodePools =
      some 3 ∧
    ∃ errs, ValidateElasticsearchClusterSpec acceptAll
        (exampleSpec [masterPoolThree] (some (3 + 1)) false) (Path.NewPath "spec") = some errs ∧
      Invalid ((Path.NewPath "spec").Child "minimumMasters") (Value.int32 (3 + 1))
        "cannot be greater than the total number of master nodes" ∈ errs :=
  ⟨by decide, by decide,
    minimumMasters_above_total acceptAll (exampleSpec [masterPoolThree] (some (3 + 1)) false)
      (Path.NewPath "spec") 3 (by decide) (by decide) rfl⟩

/-- C13: for every master count `N ≥ 1`, a specification whose master count is
`N` and whose `MinimumMasters` is 0 gets from the decision table the single
`Invalid` error at `path.minimumMasters` with detail "cannot be zero": it is
in the result, and any other `Invalid` error at `path.nodePools` or error at
`path.minimumMasters` of the result, a split-brain or greater-than error
included, could only have been returned by a collaborator validator. -/
theorem minimumMasters_zero (env : Collaborators M C I P V)
    (spec : ElasticsearchClusterSpec C I P R V) (fldPath : Path) (N : Int)
    (hN : 1 ≤ N) (hc : countElasticsearchMasters spec.NodePools = some N)
    (hm : spec.MinimumMasters = some 0) :
    minimumMastersSwitch fldPath (fldPath.Child "nodePools") spec.MinimumMasters N
        (util.CalculateQuorum N) =
      [Invalid (fldPath.Child "minimumMasters") (Value.int32 0) "cannot be zero"] ∧
    ∃ errs, ValidateElasticsearchClusterSpec env spec fldPath = some errs ∧
      Invalid (fldPath.Child "minimumMasters") (Value.int32 0) "cannot be zero" ∈ errs ∧
      ∀ e ∈ errs, IsQuorumError fldPath e →
        e = Invalid (fldPath.Child "minimumMasters") (Value.int32 0) "cannot be zero" ∨
        ReturnedByCollaborator env spec e := by
  have hsw : minimumMastersSwitch fldPath (fldPath.Child "nodePools") spec.MinimumMasters N
      (util.CalculateQuorum N) =
      [Invalid (fldPath.Child "minimumMasters") (Value.int32 0) "cannot be zero"] := by
    have h1 : N ≠ 0 := by omega
    rw [hm]
    simp [minimumMastersSwitch, h1]
  refine ⟨hsw, ?_⟩
  rw [validateSpec_eq, hc]
  refine ⟨_, rfl, ?_, ?_⟩
  · simp only [hsw]
    simp
  · intro e he hq
    simp only [hsw, List.mem_append, List.mem_singleton] at he
    rcases he with (he | he) | he
    · exact Or.inr (quorumError_returnedByCollaborator env spec fldPath e hq
        (List.mem_append_left _ (by simpa only [List.mem_append] using he)))
    · exact Or.inl he
    · exact Or.inr (quorumError_returnedByCollaborator env spec fldPath e hq
        (List.mem_append_right _ he))

/-- Witness of C13: three masters and `MinimumMasters = 0`. -/
theorem minimumMasters_zero_witness :
    (1 : Int) ≤ 3 ∧
    countElasticsearchMasters (exampleSpec [masterPoolThree] (some 0) false).NodePools = some 3 ∧
    minimumMastersSwitch (Path.NewPath "spec") ((Path.NewPath "spec").Child "nodePools")
        (exampleSpec [masterPoolThree] (some 0) false).MinimumMasters 3 (util.CalculateQuorum 3) =
      [Invalid ((Path.NewPath "spec").Child "minimumMasters") (Value.int32 0) "cannot be zero"] :=
  ⟨by decide, by decide,
    (minimumMasters_zero acceptAll (exampleSpec [masterPoolThree] (some 0) false)
      (Path.NewPath "spec") 3 (by decide) (by decide) rfl).1⟩

/-! ### The errors of one node pool -/

theorem validateRolesLoop_eq_roleSteps (rolesPath : Path) (roles : List ElasticsearchClusterRole) :
    ∀ (i : Nat), validateRolesLoop rolesPath roles i [] = (roleSteps rolesPath roles i).flatten := by
  induction roles with
  | nil => intro i; simp [validateRolesLoop, roleSteps]
  | cons r rest ih =>
    intro i
    simp only [validateRolesLoop, roleSteps, List.flatten_cons, List.nil_append]
    rw [validateRolesLoop_append, ih]

theorem roleSteps_length (rolesPath : Path) (roles : List ElasticsearchClusterRole) :
    ∀ (i : Nat), (roleSteps rolesPath roles i).length = roles.length := by
  induction roles with
  | nil => intro i; simp [roleSteps]
  | cons r rest ih => intro i; simp [roleSteps, ih]

theorem roleSteps_getElem? (rolesPath : Path) (roles : List ElasticsearchClusterRole) :
    ∀ (i k : Nat),
      (roleSteps rolesPath roles i)[k]? =
        (roles[k]?).map (fun r => ValidateElasticsearchClusterRole r (rolesPath.Index (i + k))) := by
  induction roles with
  | nil => intro i k; simp [roleSteps]
  | cons r rest ih =>
    intro i k
    cases k with
    | zero => simp [roleSteps]
    | succ k =>
      simp only [roleSteps, List.getElem?_cons_succ]
      rw [ih]
      congr 1
      funext q
      congr 2
      omega

theorem validateNodePool_parts (env : Collaborators M C I P V)
    (np : ElasticsearchClusterNodePool P R) (fldPath : Path) :
    ValidateElasticsearchClusterNodePool env np fldPath =
      env.ValidateDNS1123Subdomain np.Name (fldPath.Child "name") ++
      persistenceErrors env np fldPath ++
      ((if (sliceElems np.Roles).length = 0
          then [Required (fldPath.Child "roles") "at least one role must be specified"] else []) ++
        (roleSteps (fldPath.Child "roles") (sliceElems np.Roles) 0).flatten) ++
      replicasErrors np fldPath := by
  rw [validateNodePool_eq, validateRolesLoop_eq_roleSteps]
  unfold persistenceErrors
  simp only [List.append_assoc]

/-- C14: `ValidateElasticsearchClusterNodePool` ends its result with the
replicas error: the `Invalid` error at `path.replicas` with detail "must be
greater than zero" when the replica count is present and strictly negative,
and nothing when it is absent, zero or positive. What comes before are the
errors of the name, persistence and role steps, and an error at
`path.replicas` among them could only have been returned by the name or
persistence validator. -/
theorem replicas_error_iff_negative (env : Collaborators M C I P V)
    (np : ElasticsearchClusterNodePool P R) (fldPath : Path) :
    ∃ before replicasErrs : ErrorList,
      ValidateElasticsearchClusterNodePool env np fldPath = before ++ replicasErrs ∧
      ((∃ r, np.Replicas = some r ∧ r < 0) →
        replicasErrs = [Invalid (fldPath.Child "replicas") (Value.int32Ptr np.Replicas)
          "must be greater than zero"]) ∧
      ((np.Replicas = none ∨ ∃ r, np.Replicas = some r ∧ 0 ≤ r) → replicasErrs = []) ∧
      (np.Replicas = some 0 → replicasErrs = []) ∧
      ∀ e ∈ before, e.Field = fldPath.Child "replicas" →
        e ∈ env.ValidateDNS1123Subdomain np.Name (fldPath.Child "name") ∨
        e ∈ persistenceErrors env np fldPath := by
  refine ⟨_, replicasErrors np fldPath, validateNodePool_parts env np fldPath, ?_, ?_, ?_, ?_⟩
  · rintro ⟨r, hr, hneg⟩
    unfold replicasErrors
    rw [hr]
    simp [hneg]
  · rintro (hr | ⟨r, hr, hpos⟩)
    · unfold replicasErrors; rw [hr]
    · unfold replicasErrors
      rw [hr]
      have : ¬ r < 0 := by omega
      simp [this]
  · intro hr
    unfold replicasErrors
    rw [hr]
    simp
  · intro e he hf
    simp only [List.mem_append] at he
    rcases he with (he | he) | he | he
    · exact Or.inl he
    · exact Or.inr he
    · split_ifs at he
      · simp only [List.mem_singleton] at he
        rw [he] at hf
        simp [Required] at hf
      · simp at he
    · rw [← validateRolesLoop_eq_roleSteps] at he
      obtain ⟨j, hj⟩ := validateRolesLoop_mem _ _ e 0 he
      rw [hj] at hf
      simp at hf

/-- Witness of C14: a pool with minus one replica gets the replicas error. -/
theorem replicas_error_iff_negative_witness :
    ∃ before replicasErrs : ErrorList,
      ValidateElasticsearchClusterNodePool acceptAll (examplePool "es-data" (some (-1)) ["data"] none)
          (Path.NewPath "pool") = before ++ replicasErrs ∧
      ((∃ r, (examplePool "es-data" (some (-1)) ["data"] none).Replicas = some r ∧ r < 0) →
        replicasErrs = [Invalid ((Path.NewPath "pool").Child "replicas")
          (Value.int32Ptr (examplePool "es-data" (some (-1)) ["data"] none).Replicas)
          "must be greater than zero"]) :=
  (replicas_error_iff_negative acceptAll (examplePool "es-data" (some (-1)) ["data"] none)
    (Path.NewPath "pool")).imp (fun _ h => h.imp (fun _ h => ⟨h.1, h.2.1⟩))

/-- C15: the role errors of `ValidateElasticsearchClusterNodePool` sit between
the errors of the name and persistence steps and the replicas error, whatever
those are. They are the `Required` error at `path.roles` with detail "at least
one role must be specified", present if and only if the role list is empty,
followed by one block per role in index order: the result of
`ValidateElasticsearchClusterRole` on role `i` at `path.roles[i]`, which is
empty for a supported role and one `NotSupported` error otherwise. -/
theorem role_errors_exact (env : Collaborators M C I P V)
    (np : ElasticsearchClusterNodePool P R) (fldPath : Path) :
    ∃ (required : ErrorList) (blocks : List ErrorList),
      ValidateElasticsearchClusterNodePool env np fldPath =
        env.ValidateDNS1123Subdomain np.Name (fldPath.Child "name") ++
        persistenceErrors env np fldPath ++
        (required ++ blocks.flatten) ++
        replicasErrors np fldPath ∧
      (sliceElems np.Roles = [] →
        required = [Required (fldPath.Child "roles") "at least one role must be specified"]) ∧
      (sliceElems np.Roles ≠ [] → required = []) ∧
      blocks.length = (sliceElems np.Roles).length ∧
      ∀ (i : Nat) (r : ElasticsearchClusterRole), (sliceElems np.Roles)[i]? = some r →
        blocks[i]? = some (ValidateElasticsearchClusterRole r ((fldPath.Child "roles").Index i)) ∧
        ((r = ElasticsearchRoleData ∨ r = ElasticsearchRoleIngest ∨ r = ElasticsearchRoleMaster) →
          blocks[i]? = some []) ∧
        (¬ (r = ElasticsearchRoleData ∨ r = ElasticsearchRoleIngest ∨ r = ElasticsearchRoleMaster) →
          blocks[i]? = some [NotSupported ((fldPath.Child "roles").Index i) (Value.role r)
            supportedESClusterRoles]) := by
  refine ⟨_, roleSteps (fldPath.Child "roles") (sliceElems np.Roles) 0,
    validateNodePool_parts env np fldPath, ?_, ?_, roleSteps_length _ _ 0, ?_⟩
  · intro h; simp [h]
  · intro h
    have : ¬ (sliceElems np.Roles).length = 0 := by
      intro hl; exact h (List.length_eq_zero.1 hl)
    simp [this]
  · intro i r hr
    have hb : (roleSteps (fldPath.Child "roles") (sliceElems np.Roles) 0)[i]? =
        some (ValidateElasticsearchClusterRole r ((fldPath.Child "roles").Index i)) := by
      rw [roleSteps_getElem?, hr]
      simp
    refine ⟨hb, ?_, ?_⟩
    · intro hs; rw [hb, validateRole_supported r _ hs]
    · intro hu; rw [hb, validateRole_unsupported r _ hu]

/-- Witness of C15: the role list of the pool is ["master", "client"]. -/
theorem role_errors_exact_witness :
    ∃ (required : ErrorList) (blocks : List ErrorList),
      ValidateElasticsearchClusterNodePool acceptAll
          (examplePool "es-master" (some 3) ["master", "client"] none) (Path.NewPath "pool") =
        acceptAll.ValidateDNS1123Subdomain "es-master" ((Path.NewPath "pool").Child "name") ++
        persistenceErrors acceptAll (examplePool "es-master" (some 3) ["master", "client"] none)
          (Path.NewPath "pool") ++
        (required ++ blocks.flatten) ++
        replicasErrors (examplePool "es-master" (some 3) ["master", "client"] none)
          (Path.NewPath "pool") :=
  (role_errors_exact acceptAll (examplePool "es-master" (some 3) ["master", "client"] none)
    (Path.NewPath "pool")).imp (fun _ h => h.imp (fun _ h => h.1))

/-! ### Updates without an immutability constraint -/

theorem updateStep_self_nil [DecidableEq P] [DecidableEq R] (idxPath : Path)
    (np : ElasticsearchClusterNodePool P R) : immutabilityErrors idxPath np np = [] := by
  simp [immutabilityErrors]

/-- C16: when no new node pool has the name of an old node pool, no
immutability constraint applies: `ValidateElasticsearchClusterUpdate(old, new)`
is `ValidateElasticsearchCluster(new)`, the same list or the same abort. -/
theorem update_without_common_names [DecidableEq P] [DecidableEq R]
    (env : Collaborators M C I P V) (old new : ElasticsearchCluster M C I P R V)
    (h : ∀ newNp ∈ new.Spec.NodePools, ∀ oldNp ∈ old.Spec.NodePools, newNp.Name ≠ oldNp.Name) :
    ValidateElasticsearchClusterUpdate env old new = ValidateElasticsearchCluster env new := by
  rw [validateUpdate_eq]
  have hnil : (updateSteps ((Path.NewPath "spec").Child "nodePools") old.Spec.NodePools
      new.Spec.NodePools 0).flatten = [] := by
    apply updateSteps_flatten_nil
    intro newNp hnew idxPath
    unfold updateStep
    cases hf : firstSameName newNp old.Spec.NodePools with
    | none => rfl
    | some oldNp =>
      obtain ⟨hold, hname⟩ := firstSameName_some newNp oldNp _ hf
      exact absurd hname (h newNp hnew oldNp hold)
  rw [hnil]
  cases ValidateElasticsearchCluster env new <;> simp

/-- Witness of C16: the old pool "es-master" is replaced by "es-master-b". -/
theorem update_without_common_names_witness :
    ValidateElasticsearchClusterUpdate acceptAll (exampleCluster [masterPoolThree] none false)
        (exampleCluster [renamedMasterPool] none false) =
      ValidateElasticsearchCluster acceptAll (exampleCluster [renamedMasterPool] none false) :=
  update_without_common_names acceptAll (exampleCluster [masterPoolThree] none false)
    (exampleCluster [renamedMasterPool] none false) (by decide)

/-- C20: a no-op update adds no error. For a cluster whose node-pool names are
pairwise distinct, `ValidateElasticsearchClusterUpdate(x, x)` is
`ValidateElasticsearchCluster(x)`, the same list or the same abort, so no
`Forbidden` error is appended. -/
theorem noop_update_adds_nothing [DecidableEq P] [DecidableEq R]
    (env : Collaborators M C I P V) (x : ElasticsearchCluster M C I P R V)
    (hn : (x.Spec.NodePools.map (fun np => np.Name)).Nodup) :
    ValidateElasticsearchClusterUpdate env x x = ValidateElasticsearchCluster env x := by
  rw [validateUpdate_eq]
  have hnil : (updateSteps ((Path.NewPath "spec").Child "nodePools") x.Spec.NodePools
      x.Spec.NodePools 0).flatten = [] := by
    apply updateSteps_flatten_nil
    intro newNp hnew idxPath
    unfold updateStep
    cases hf : firstSameName newNp x.Spec.NodePools with
    | none => rfl
    | some oldNp =>
      obtain ⟨hold, hname⟩ := firstSameName_some newNp oldNp _ hf
      have heq : newNp = oldNp := List.inj_on_of_nodup_map hn hnew hold hname
      subst heq
      exact updateStep_self_nil idxPath newNp
  rw [hnil]
  cases ValidateElasticsearchCluster env x <;> simp

/-- Witness of C20: a cluster with a Master pool and a data pool. -/
theorem noop_update_adds_nothing_witness :
    ((exampleCluster [masterPoolThree, dataPoolWithPersistence] none false).Spec.NodePools.map
        (fun np => np.Name)).Nodup ∧
      ValidateElasticsearchClusterUpdate acceptAll
        (exampleCluster [masterPoolThree, dataPoolWithPersistence] none false)
        (exampleCluster [masterPoolThree, dataPoolWithPersistence] none false) =
      ValidateElasticsearchCluster acceptAll
        (exampleCluster [masterPoolThree, dataPoolWithPersistence] none false) :=
  ⟨by decide,
    noop_update_adds_nothing acceptAll
      (exampleCluster [masterPoolThree, dataPoolWithPersistence] none false) (by decide)⟩

/-! ### When the validation returns -/

theorem countMastersLoop_isSome_iff (pools : List (ElasticsearchClusterNodePool P R)) :
    ∀ (masters : Int), (∃ N, countMastersLoop pools masters = some N) ↔
      ∀ np ∈ pools, containsElasticsearchRole (sliceElems np.Roles) ElasticsearchRoleMaster = true →
        np.Replicas ≠ none := by
  induction pools with
  | nil => intro masters; simp [countMastersLoop]
  | cons np rest ih =>
    intro masters
    simp only [countMastersLoop, List.mem_cons, forall_eq_or_imp]
    by_cases hm : containsElasticsearchRole (sliceElems np.Roles) ElasticsearchRoleMaster = true
    · rw [if_pos hm]
      cases hr : np.Replicas with
      | none => simp [hm]
      | some r => simp [ih]
    · rw [if_neg hm]
      simp [hm, ih]

/-- C17: `ValidateElasticsearchClusterSpec` returns an error list for every
specification in which each pool carrying the Master role has a replica count
(pools without the Master role may lack one), and it aborts exactly on the
specifications that contain a Master pool whose replica count is absent. -/
theorem validateSpec_returns_iff (env : Collaborators M C I P V)
    (spec : ElasticsearchClusterSpec C I P R V) (fldPath : Path) :
    ((∀ np ∈ spec.NodePools,
        containsElasticsearchRole (sliceElems np.Roles) ElasticsearchRoleMaster = true →
        np.Replicas ≠ none) →
      ∃ errs, ValidateElasticsearchClusterSpec env spec fldPath = some errs) ∧
    (ValidateElasticsearchClusterSpec env spec fldPath = none ↔
      ∃ np ∈ spec.NodePools,
        containsElasticsearchRole (sliceElems np.Roles) ElasticsearchRoleMaster = true ∧
        np.Replicas = none) := by
  have key := countMastersLoop_isSome_iff spec.NodePools 0
  constructor
  · intro h
    obtain ⟨N, hN⟩ := key.2 h
    have hc : countElasticsearchMasters spec.NodePools = some N := hN
    rw [validateSpec_eq, hc]
    exact ⟨_, rfl⟩
  · rw [validateSpec_eq]
    constructor
    · intro hnone
      by_contra hex
      have hall : ∀ np ∈ spec.NodePools,
          containsElasticsearchRole (sliceElems np.Roles) ElasticsearchRoleMaster = true →
          np.Replicas ≠ none := by
        intro np hnp hm hr
        exact hex ⟨np, hnp, hm, hr⟩
      obtain ⟨N, hN⟩ := key.2 hall
      have hc : countElasticsearchMasters spec.NodePools = some N := hN
      rw [hc] at hnone
      simp at hnone
    · rintro ⟨np, hnp, hm, hr⟩
      cases hc : countElasticsearchMasters spec.NodePools with
      | none => rfl
      | some N =>
        exact absurd hr (key.1 ⟨N, hc⟩ np hnp hm)

/-- Witness of C17: a Master pool with replicas and a data pool without a
replica count; the validation returns. -/
theorem validateSpec_returns_iff_witness :
    ∃ errs, ValidateElasticsearchClusterSpec acceptAll
      (exampleSpec [masterPoolThree, examplePool "es-data" none ["data"] none] none false)
      (Path.NewPath "spec") = some errs :=
  (validateSpec_returns_iff acceptAll
    (exampleSpec [masterPoolThree, examplePool "es-data" none ["data"] none] none false)
    (Path.NewPath "spec")).1 (by decide)

/-! ### The master count as a sum -/

theorem containsElasticsearchRole_iff (set : List ElasticsearchClusterRole)
    (role : ElasticsearchClusterRole) :
    containsElasticsearchRole set role = true ↔ role ∈ set := by
  induction set with
  | nil => simp [containsElasticsearchRole]
  | cons s rest ih =>
    simp only [containsElasticsearchRole, List.mem_cons]
    by_cases h : s = role
    · simp [h]
    · rw [if_neg h, ih]
      constructor
      · exact Or.inr
      · rintro (h' | h')
        · exact absurd h'.symm h
        · exact h'

theorem wrapInt32_wrapInt32_add (x y : Int) : wrapInt32 (wrapInt32 x + y) = wrapInt32 (x + y) := by
  unfold wrapInt32
  omega

theorem wrapInt32_of_inRange (x : Int) (h1 : -2147483648 ≤ x) (h2 : x < 2147483648) :
    wrapInt32 x = x := by
  unfold wrapInt32
  omega

theorem countMastersLoop_eq_sum (pools : List (ElasticsearchClusterNodePool P R))
    (h : ∀ np ∈ pools, ElasticsearchRoleMaster ∈ sliceElems np.Roles → np.Replicas ≠ none) :
    ∀ (masters : Int), wrapInt32 masters = masters →
      countMastersLoop pools masters = some (wrapInt32 (masters + masterReplicaSum pools)) := by
  induction pools with
  | nil =>
    intro masters hfix
    simp [countMastersLoop, masterReplicaSum, hfix]
  | cons np rest ih =>
    intro masters hfix
    have hrest : ∀ q ∈ rest, ElasticsearchRoleMaster ∈ sliceElems q.Roles → q.Replicas ≠ none :=
      fun q hq => h q (List.mem_cons_of_mem _ hq)
    simp only [countMastersLoop]
    by_cases hm : ElasticsearchRoleMaster ∈ sliceElems np.Roles
    · rw [if_pos ((containsElasticsearchRole_iff _ _).2 hm)]
      obtain ⟨r, hr⟩ := Option.ne_none_iff_exists'.1 (h np (List.mem_cons_self _ _) hm)
      rw [hr]
      simp only []
      rw [ih hrest (wrapInt32 (masters + r)) (by unfold wrapInt32; omega)]
      have hsum : masterReplicaSum (np :: rest) = r + masterReplicaSum rest := by
        simp [masterReplicaSum, List.filter_cons, hm, hr]
      rw [hsum, wrapInt32_wrapInt32_add]
      congr 2
      omega
    · have hc : ¬ containsElasticsearchRole (sliceElems np.Roles) ElasticsearchRoleMaster = true :=
        fun hc => hm ((containsElasticsearchRole_iff _ _).1 hc)
      rw [if_neg hc, ih hrest masters hfix]
      have hsum : masterReplicaSum (np :: rest) = masterReplicaSum rest := by
        simp [masterReplicaSum, List.filter_cons, hm]
      rw [hsum]

/-- C19: when each pool whose role list contains Master has a replica count,
`countElasticsearchMasters` returns the `int32` sum of the replica counts of
exactly the pools whose role list contains Master: such a pool counts once
however often Master occurs in its list, and the other pools contribute
nothing. When that sum is in the `int32` range the result is the sum itself. -/
theorem countMasters_eq_sum (pools : List (ElasticsearchClusterNodePool P R))
    (h : ∀ np ∈ pools, ElasticsearchRoleMaster ∈ sliceElems np.Roles → np.Replicas ≠ none) :
    countElasticsearchMasters pools = some (wrapInt32 (masterReplicaSum pools)) ∧
    (-2147483648 ≤ masterReplicaSum pools → masterReplicaSum pools < 2147483648 →
      countElasticsearchMasters pools = some (masterReplicaSum pools)) := by
  have hmain : countElasticsearchMasters pools = some (wrapInt32 (masterReplicaSum pools)) := by
    unfold countElasticsearchMasters
    rw [countMastersLoop_eq_sum pools h 0 (by decide)]
    simp
  refine ⟨hmain, ?_⟩
  intro h1 h2
  rw [hmain, wrapInt32_of_inRange _ h1 h2]

/-- Witness of C19: Master occurs twice in the first pool, which counts once;
the data pool with seven replicas and the pool without a count add nothing. -/
theorem countMasters_eq_sum_witness :
    countElasticsearchMasters
        [examplePool "a" (some 3) ["master", "master"] none,
          examplePool "b" (some 7) ["data"] none,
          examplePool "c" none ["ingest"] none,
          examplePool "d" (some 2) ["data", "master"] none] = some 5 ∧
      masterReplicaSum
        [examplePool "a" (some 3) ["master", "master"] none,
          examplePool "b" (some 7) ["data"] none,
          examplePool "c" none ["ingest"] none,
          examplePool "d" (some 2) ["data", "master"] none] = 5 :=
  ⟨((countMasters_eq_sum
      [examplePool "a" (some 3) ["master", "master"] none,
        examplePool "b" (some 7) ["data"] none,
        examplePool "c" none ["ingest"] none,
        examplePool "d" (some 2) ["data", "master"] none] (by decide)).2
      (by decide) (by decide)).trans (by decide), by decide⟩

/-! ### The update check on the memory -/

theorem storePool_same (mem : Memory P R) (a : Nat) (v : ElasticsearchClusterNodePool P R) :
    storePool mem a v a = v := by
  simp [storePool]

theorem storePool_other (mem : Memory P R) (a b : Nat) (v : ElasticsearchClusterNodePool P R)
    (h : b ≠ a) : storePool mem a v b = mem b := by
  simp [storePool, h]

theorem map_storePool (mem : Memory P R) (a : Nat) (v : ElasticsearchClusterNodePool P R)
    (addrs : List Nat) (h : a ∉ addrs) : addrs.map (storePool mem a v) = addrs.map mem := by
  apply List.map_congr_left
  intro b hb
  exact storePool_other mem a b v (fun hba => h (hba ▸ hb))

theorem map_congr_off (mem mem' : Memory P R) (loc : Nat) (addrs : List Nat)
    (hloc : loc ∉ addrs) (h : ∀ a, a ≠ loc → mem' a = mem a) : addrs.map mem' = addrs.map mem := by
  apply List.map_congr_left
  intro b hb
  exact h b (fun hba => hloc (hba ▸ hb))

theorem oldNodePoolsLoopMem_eq [DecidableEq P] [DecidableEq R] (idxPath : Path) (loc : Nat)
    (addrs : List Nat) :
    ∀ (mem : Memory P R) (allErrs : ErrorList),
      oldNodePoolsLoopMem idxPath loc mem addrs allErrs =
        (mem, oldNodePoolsLoop idxPath (mem loc) (addrs.map mem) allErrs) := by
  induction addrs with
  | nil => intro mem allErrs; simp [oldNodePoolsLoopMem, oldNodePoolsLoop]
  | cons c rest ih =>
    intro mem allErrs
    simp only [oldNodePoolsLoopMem, oldNodePoolsLoop, List.map_cons]
    by_cases hname : (mem loc).Name = (mem c).Name
    · simp only [if_pos hname, storePool_same]
      refine Prod.ext ?_ rfl
      funext b
      by_cases hb : b = loc
      · subst hb
        simp only [storePool_same]
      · simp only [storePool_other _ _ _ _ hb]
    · simp only [hname, if_false]
      exact ih mem allErrs

theorem newNodePoolsLoopMem_eq [DecidableEq P] [DecidableEq R] (npPath : Path)
    (oldAddrs : List Nat) (loc : Nat) (hold : loc ∉ oldAddrs) (addrs : List Nat) :
    ∀ (mem : Memory P R) (i : Nat) (allErrs : ErrorList), loc ∉ addrs →
      (∀ a, a ≠ loc → (newNodePoolsLoopMem npPath oldAddrs loc mem addrs i allErrs).1 a = mem a) ∧
      (newNodePoolsLoopMem npPath oldAddrs loc mem addrs i allErrs).2 =
        newNodePoolsLoop npPath (oldAddrs.map mem) (addrs.map mem) i allErrs := by
  induction addrs with
  | nil => intro mem i allErrs _; simp [newNodePoolsLoopMem, newNodePoolsLoop]
  | cons b rest ih =>
    intro mem i allErrs hnew
    have hb : b ≠ loc := fun h => hnew (h ▸ List.mem_cons_self _ _)
    have hrest : loc ∉ rest := fun h => hnew (List.mem_cons_of_mem _ h)
    simp only [newNodePoolsLoopMem, newNodePoolsLoop, List.map_cons]
    rw [oldNodePoolsLoopMem_eq]
    obtain ⟨h1, h2⟩ := ih (storePool mem loc (mem b)) (i + 1)
      (oldNodePoolsLoop (npPath.Index i) (storePool mem loc (mem b) loc)
        (oldAddrs.map (storePool mem loc (mem b))) allErrs) hrest
    refine ⟨?_, ?_⟩
    · intro a ha
      rw [h1 a ha, storePool_other mem loc a _ ha]
    · rw [h2, storePool_same, map_storePool mem loc _ oldAddrs hold,
        map_storePool mem loc _ rest hrest]

/-- C18: `ValidateElasticsearchClusterUpdate` leaves both objects of the
caller unchanged. The call runs on a memory in which the node pools of `old`
and `new` sit at the addresses of their slices and the loop variable `newNp`
at an address `loc` that is none of them. The final memory differs from the
initial one at most at `loc`, so `old` and `new` denote the clusters they
denoted before and every pool of `new` has its own replicas and persistence;
the errors are those of the function, and a final memory is reached exactly
when the function returns. Moreover the inner loop leaves the whole memory as
it found it, the loop variable included: the substitution made for the
comparison is undone before the loop is left. -/
theorem update_leaves_objects_unchanged [DecidableEq P] [DecidableEq R]
    (env : Collaborators M C I P V) (mem : Memory P R) (old new : ClusterRef M C I V) (loc : Nat)
    (hold : loc ∉ old.poolAddrs) (hnew : loc ∉ new.poolAddrs) :
    (∀ errs, ValidateElasticsearchClusterUpdate env (loadCluster mem old) (loadCluster mem new) =
        some errs →
      ∃ mem', ValidateElasticsearchClusterUpdateMem env mem old new loc = some (mem', errs)) ∧
    (∀ mem' errs, ValidateElasticsearchClusterUpdateMem env mem old new loc = some (mem', errs) →
      (∀ a, a ≠ loc → mem' a = mem a) ∧
      (loadCluster mem' old : ElasticsearchCluster M C I P R V) = loadCluster mem old ∧
      (loadCluster mem' new : ElasticsearchCluster M C I P R V) = loadCluster mem new ∧
      (∀ a ∈ new.poolAddrs, (mem' a).Replicas = (mem a).Replicas ∧
        (mem' a).Persistence = (mem a).Persistence) ∧
      ValidateElasticsearchClusterUpdate env (loadCluster mem old) (loadCluster mem new) =
        some errs) ∧
    (∀ (m : Memory P R) (idxPath : Path) (addrs : List Nat) (allErrs : ErrorList),
      (oldNodePoolsLoopMem idxPath loc m addrs allErrs).1 = m) := by
  have hloop := fun allErrs =>
    newNodePoolsLoopMem_eq ((Path.NewPath "spec").Child "nodePools") old.poolAddrs loc hold
      new.poolAddrs mem 0 allErrs hnew
  refine ⟨?_, ?_, ?_⟩
  · intro errs h
    unfold ValidateElasticsearchClusterUpdate at h
    unfold ValidateElasticsearchClusterUpdateMem
    cases hc : ValidateElasticsearchCluster env (loadCluster mem new) with
    | none => rw [hc] at h; simp at h
    | some allErrs =>
      rw [hc] at h
      simp only [Option.some.injEq] at h
      refine ⟨(newNodePoolsLoopMem ((Path.NewPath "spec").Child "nodePools") old.poolAddrs loc
        mem new.poolAddrs 0 allErrs).1, ?_⟩
      simp only [Option.some.injEq]
      refine Prod.ext rfl ?_
      rw [← h, (hloop allErrs).2]
      rfl
  · intro mem' errs h
    unfold ValidateElasticsearchClusterUpdateMem at h
    cases hc : ValidateElasticsearchCluster env (loadCluster mem new) with
    | none => rw [hc] at h; simp at h
    | some allErrs =>
      rw [hc] at h
      simp only [Option.some.injEq] at h
      have hm : ∀ a, a ≠ loc → mem' a = mem a := by
        intro a ha
        rw [← (hloop allErrs).1 a ha, h]
      have he : errs = newNodePoolsLoop ((Path.NewPath "spec").Child "nodePools")
          (old.poolAddrs.map mem) (new.poolAddrs.map mem) 0 allErrs := by
        rw [← (hloop allErrs).2, h]
      refine ⟨hm, ?_, ?_, ?_, ?_⟩
      · unfold loadCluster
        rw [map_congr_off mem mem' loc old.poolAddrs hold hm]
      · unfold loadCluster
        rw [map_congr_off mem mem' loc new.poolAddrs hnew hm]
      · intro a ha
        rw [hm a (fun hal => hnew (hal ▸ ha))]
        exact ⟨rfl, rfl⟩
      · unfold ValidateElasticsearchClusterUpdate
        rw [hc, he]
        rfl
  · intro m idxPath addrs allErrs
    rw [oldNodePoolsLoopMem_eq]

/-- Witness of C18: the pool "es-master" at address 0 is updated to the pool
at address 1 (five replicas, the Data role added, persistence added), with the
loop variable at address 2. -/
theorem update_leaves_objects_unchanged_witness :
    2 ∉ (exampleRef [0]).poolAddrs ∧ 2 ∉ (exampleRef [1]).poolAddrs ∧
    ∃ mem', ValidateElasticsearchClusterUpdateMem acceptAll exampleMemory (exampleRef [0])
        (exampleRef [1]) 2 =
      some (mem', [Forbidden (Path.NewPath "spec")
        "updates to nodepool for fields other than 'replicas' and 'persistence' are forbidden."]) :=
  ⟨by decide, by decide,
    (update_leaves_objects_unchanged acceptAll exampleMemory (exampleRef [0]) (exampleRef [1]) 2
      (by decide) (by decide)).1
      [Forbidden (Path.NewPath "spec")
        "updates to nodepool for fields other than 'replicas' and 'persistence' are forbidden."]
      (by decide)⟩

end

end validation
